import Mathlib

/-!
Verification development for the karpenter yandex cloud provider.

The Go sources are shallowly embedded: pure Go functions become Lean
functions, maps become association lists, `(value, ok bool)` returns become
`Option`, Go `error` returns become `Option`/`Except`, and a Go `panic`
becomes a dedicated `GoResult.panic` constructor so that panicking is
distinguishable from returning an error value.

Machine integers are modelled with `Int`/`Nat` (none of the embedded code
relies on overflow), and the float64 prices of the static pricing tables are
modelled as exact rationals scaled by 10^4 (every table entry has four
decimal digits, hence is exactly representable; the price formulas are
linear with small coefficients, so exact rational arithmetic agrees with
the float64 evaluation on the magnitudes involved).
-/

namespace KYandex

/-! ## k8s resource.Quantity (restricted model)

`resource.Quantity` is modelled by an integral number of base units plus a
format (`DecimalSI` or `BinarySI`).  All quantities manipulated by the
embedded code paths are integral in base units (whole CPUs, byte counts),
so the inf.Dec / scaled branches of the Go implementation are not needed.
-/

inductive QFormat where
  | decimalSI
  | binarySI
  deriving DecidableEq, Repr

structure Quantity where
  value : Int
  format : QFormat
  deriving DecidableEq, Repr

/-- Divide `n` by `base` while evenly divisible, returning the remaining
amount and the number of divisions (Go `removeInt64Factors`).  `fuel`
bounds the recursion; 64 suffices for any int64. -/
def removeFactors (base : Nat) (n : Nat) : Nat → Nat × Nat
  | 0 => (n, 0)
  | fuel + 1 =>
    if n ≠ 0 ∧ base > 1 ∧ n % base = 0 then
      let (m, e) := removeFactors base (n / base) fuel
      (m, e + 1)
    else (n, 0)

def decSuffixes : List String := ["", "k", "M", "G", "T", "P", "E"]

def binSuffixes : List String := ["", "Ki", "Mi", "Gi", "Ti", "Pi", "Ei"]

/-- Canonical decimal rendering of a nonnegative integral quantity value
(Go `int64Amount.AsCanonicalBytes` + `constructBytes` for `DecimalSI`):
factors of 10 are removed, the exponent is forced down to a multiple of 3,
and the matching SI suffix is appended. -/
def decimalCanonical (n : Nat) : String :=
  let (amount, times) := removeFactors 10 n 64
  let (amount, times) :=
    if times % 3 = 1 then (amount * 10, times - 1)
    else if times % 3 = 2 then (amount * 100, times - 2)
    else (amount, times)
  Nat.repr amount ++ (decSuffixes.getD (times / 3) "")

/-- Canonical base-1024 rendering (Go `AsCanonicalBase1024Bytes`). -/
def binaryCanonical (n : Nat) : String :=
  let (amount, times) := removeFactors 1024 n 64
  Nat.repr amount ++ (binSuffixes.getD times "")

/-- Model of `resource.Quantity.String()` for nonnegative integral values:
`BinarySI` values below 1024 fall back to decimal canonical form, larger
ones are rendered with binary suffixes; `DecimalSI` values use decimal
canonical form. -/
def quantityString (q : Quantity) : String :=
  if q.value = 0 then "0"
  else
    match q.format with
    | .binarySI =>
      if q.value < 1024 then decimalCanonical q.value.toNat
      else binaryCanonical q.value.toNat
    | .decimalSI => decimalCanonical q.value.toNat

def charDigit (c : Char) : Option Nat :=
  if '0' ≤ c ∧ c ≤ '9' then some (c.toNat - '0'.toNat) else none

def digitsToNat : List Char → Option Nat
  | [] => none
  | cs => cs.foldlM (fun acc c => (charDigit c).map (fun d => acc * 10 + d)) 0

/-- Multiplier attached to a quantity suffix, together with the format it
selects.  Covers the integral suffixes of the k8s grammar (the fractional
`m`/`u`/`n` suffixes never appear in canonical instance-type names). -/
def suffixValue : List Char → Option (Nat × QFormat)
  | [] => some (1, .decimalSI)
  | ['k'] => some (10 ^ 3, .decimalSI)
  | ['M'] => some (10 ^ 6, .decimalSI)
  | ['G'] => some (10 ^ 9, .decimalSI)
  | ['T'] => some (10 ^ 12, .decimalSI)
  | ['P'] => some (10 ^ 15, .decimalSI)
  | ['E'] => some (10 ^ 18, .decimalSI)
  | ['K', 'i'] => some (2 ^ 10, .binarySI)
  | ['M', 'i'] => some (2 ^ 20, .binarySI)
  | ['G', 'i'] => some (2 ^ 30, .binarySI)
  | ['T', 'i'] => some (2 ^ 40, .binarySI)
  | ['P', 'i'] => some (2 ^ 50, .binarySI)
  | ['E', 'i'] => some (2 ^ 60, .binarySI)
  | _ => none

/-- Model of `resource.ParseQuantity` restricted to the canonical integral
grammar `digits [suffix]` (the only shape produced by `quantityString`);
other inputs are rejected like any other parse failure. -/
def parseQuantity (s : String) : Option Quantity :=
  let cs := s.toList
  let digits := cs.takeWhile (fun c => '0' ≤ c ∧ c ≤ '9')
  let rest := cs.dropWhile (fun c => '0' ≤ c ∧ c ≤ '9')
  match digitsToNat digits, suffixValue rest with
  | some n, some (mult, fmt) => some ⟨(n * mult : Nat), fmt⟩
  | _, _ => none

/-- Model of `strconv.ParseInt(s, 10, 64)` for the inputs that matter here:
an optional sign followed by decimal digits. -/
def parseInt (s : String) : Option Int :=
  match s.toList with
  | '-' :: cs => (digitsToNat cs).map (fun n => -(n : Int))
  | '+' :: cs => (digitsToNat cs).map (fun n => (n : Int))
  | cs => (digitsToNat cs).map (fun n => (n : Int))

/-! ## InstanceType and its canonical name (pkg/yandex sdk.go) -/

/-- `PlatformId` is a string type in the source. -/
abbrev PlatformId := String

def PlatformUnknown : PlatformId := "unknown"
def PlatformIntelBroadwell : PlatformId := "standard-v1"
def PlatformIntelCascadeLake : PlatformId := "standard-v2"
def PlatformIntelIceLake : PlatformId := "standard-v3"
def PlatformAMDZen3 : PlatformId := "amd-v1"
def PlatformAMDZen4 : PlatformId := "standard-v4a"
def PlatformIntelIceLakeComputeOptimized : PlatformId := "highfreq-v3"
def PlatformAmdZen4ComputeOptimized : PlatformId := "highfreq-v4a"
def PlatformIntelBroadwellNVIDIATeslaV100 : PlatformId := "gpu-standard-v1"
def PlatformIntelCascadeLakeNVIDIATeslaV100 : PlatformId := "gpu-standard-v2"
def PlatformAMDEPYCNVIDIAAmpereA100 : PlatformId := "gpu-standard-v3"
def PlatformAMDEPYC9474FGen2 : PlatformId := "gpu-standard-v3i"
def PlatformIntelIceLakeNVIDIATeslaT4 : PlatformId := "standard-v3-t4"
def PlatformIntelIceLakeNVIDIATeslaT4i : PlatformId := "standard-v3-t4i"

/-- `CoreFraction` is an integer type in the source. -/
abbrev CoreFraction := Int

def CoreFraction5 : CoreFraction := 5
def CoreFraction20 : CoreFraction := 20
def CoreFraction50 : CoreFraction := 50
def CoreFraction100 : CoreFraction := 100

structure InstanceType where
  platform : PlatformId
  cpu : Quantity
  memory : Quantity
  coreFraction : CoreFraction
  deriving DecidableEq, Repr

def intDecimalString (i : Int) : String :=
  if i < 0 then "-" ++ Nat.repr (-i).toNat else Nat.repr i.toNat

/-- `InstanceType.String()`: `fmt.Sprintf("%s_%s_%s_%d", ...)`. -/
def instanceTypeString (it : InstanceType) : String :=
  it.platform ++ "_" ++ quantityString it.cpu ++ "_" ++ quantityString it.memory
    ++ "_" ++ intDecimalString it.coreFraction

/-- `strings.Split` with a one-character separator. -/
def splitOnCharAux (sep : Char) : List Char → List Char → List (List Char)
  | [], acc => [acc.reverse]
  | c :: cs, acc =>
    if c = sep then acc.reverse :: splitOnCharAux sep cs []
    else splitOnCharAux sep cs (c :: acc)

def splitOnChar (sep : Char) (s : String) : List String :=
  (splitOnCharAux sep s.toList []).map List.asString

/-- `InstanceType.FromString`: split on `_`, expect four parts, parse the
CPU and memory quantities and the core fraction.  The Go method mutates the
receiver and returns an `error`; the model returns the parsed value or
`none`. -/
def instanceTypeFromString (s : String) : Option InstanceType :=
  match splitOnChar '_' s with
  | [p, c, m, f] => do
    let cpu ← parseQuantity c
    let memory ← parseQuantity m
    let fraction ← parseInt f
    some ⟨p, cpu, memory, fraction⟩
  | _ => none

/-! ## Platform configuration table (ru.configuration.go) -/

/-- `InstanceConfiguration`.  The Go `MemoryPerCore []float64` entries are
all exact multiples of 0.25 GiB (0.25 … 16.00), so they are stored here in
quarter-GiB units (`memoryPerCoreQuarters`); e.g. Go `0.50` is `2`. -/
structure InstanceConfiguration where
  coreFraction : CoreFraction
  vCPU : List Nat
  memoryPerCoreQuarters : List Nat
  canBePreemptible : Bool
  deriving DecidableEq, Repr

/-- Per-platform configuration rows of `ruAvailableConfigurations`. -/
def cfgsAMDEPYC9474FGen2 : List InstanceConfiguration :=
  [⟨CoreFraction100, [18, 36, 72, 180], [32], true⟩]

def cfgsAMDEPYCNVIDIAAmpereA100 : List InstanceConfiguration :=
  [⟨CoreFraction100, [28, 56, 112, 224], [17], true⟩]

def cfgsIntelBroadwell : List InstanceConfiguration :=
  [⟨CoreFraction5, [2, 4], [2, 4, 6, 8], true⟩,
   ⟨CoreFraction20, [2, 4], [2, 4, 6, 8, 10, 12, 14, 16], true⟩,
   ⟨CoreFraction100, [2, 4, 6, 8, 10, 12, 14, 16, 20, 24, 28, 32],
    [4, 8, 12, 16, 20, 24, 28, 32], true⟩]

def cfgsIntelBroadwellNVIDIATeslaV100 : List InstanceConfiguration :=
  [⟨CoreFraction100, [8, 16, 32], [48], true⟩]

def cfgsIntelCascadeLake : List InstanceConfiguration :=
  [⟨CoreFraction5, [2, 4], [1, 2, 4, 6, 8], true⟩,
   ⟨CoreFraction20, [2, 4], [2, 4, 6, 8, 10, 12, 14, 16], true⟩,
   ⟨CoreFraction50, [2, 4], [2, 4, 6, 8, 10, 12, 14, 16], true⟩,
   ⟨CoreFraction100,
    [2, 4, 6, 8, 10, 12, 14, 16, 20, 24, 28, 32, 36, 40, 44, 48, 52, 56,
     60, 64, 68, 72, 76, 80],
    [4, 8, 12, 16, 20, 24, 28, 32, 36, 40, 44, 48, 52, 56, 60, 64],
    true⟩]

def cfgsIntelCascadeLakeNVIDIATeslaV100 : List InstanceConfiguration :=
  [⟨CoreFraction100, [8, 16, 32, 64], [24], true⟩]

def cfgsIntelIceLake : List InstanceConfiguration :=
  [⟨CoreFraction20, [2, 4], [2, 4, 6, 8, 10, 12, 14, 16], true⟩,
   ⟨CoreFraction50, [2, 4], [2, 4, 6, 8, 10, 12, 14, 16], true⟩,
   ⟨CoreFraction100,
    [2, 4, 6, 8, 10, 12, 14, 16, 20, 24, 28, 32, 36, 40, 44, 48, 52, 56,
     60, 64, 68, 72, 76, 80, 84, 88, 92, 96],
    [4, 8, 12, 16, 20, 24, 28, 32, 36, 40, 44, 48, 52, 56, 60, 64],
    true⟩]

def cfgsIntelIceLakeComputeOptimized : List InstanceConfiguration :=
  [⟨CoreFraction100,
    [2, 4, 6, 8, 10, 12, 14, 16, 20, 24, 28, 32, 36, 40, 44, 48, 52, 56],
    [4, 8, 12, 16, 20, 24, 28, 32, 36, 40, 44, 48, 52, 56, 60, 64],
    false⟩]

def cfgsIntelIceLakeNVIDIATeslaT4 : List InstanceConfiguration :=
  [⟨CoreFraction100, [4, 8, 16, 32], [16], true⟩]

def cfgsIntelIceLakeNVIDIATeslaT4i : List InstanceConfiguration :=
  [⟨CoreFraction100, [4, 8, 16, 32], [16], true⟩]

/-- `ruAvailableConfigurations` as an association list (Go map iteration
order is irrelevant to the properties proved here). -/
def ruAvailableConfigurations : List (PlatformId × List InstanceConfiguration) :=
  [ (PlatformAMDEPYC9474FGen2, cfgsAMDEPYC9474FGen2),
    (PlatformAMDEPYCNVIDIAAmpereA100, cfgsAMDEPYCNVIDIAAmpereA100),
    (PlatformIntelBroadwell, cfgsIntelBroadwell),
    (PlatformIntelBroadwellNVIDIATeslaV100, cfgsIntelBroadwellNVIDIATeslaV100),
    (PlatformIntelCascadeLake, cfgsIntelCascadeLake),
    (PlatformIntelCascadeLakeNVIDIATeslaV100, cfgsIntelCascadeLakeNVIDIATeslaV100),
    (PlatformIntelIceLake, cfgsIntelIceLake),
    (PlatformIntelIceLakeComputeOptimized, cfgsIntelIceLakeComputeOptimized),
    (PlatformIntelIceLakeNVIDIATeslaT4, cfgsIntelIceLakeNVIDIATeslaT4),
    (PlatformIntelIceLakeNVIDIATeslaT4i, cfgsIntelIceLakeNVIDIATeslaT4i) ]

/-- `generateInstanceTypes`: the cross product of a configuration's vCPU
counts and memory-per-core ratios.  The Go code builds the CPU quantity by
parsing `fmt.Sprintf("%d", cpu)` (an integral `DecimalSI` quantity) and the
memory quantity by parsing `fmt.Sprintf("%fGi", memPerCore*float64(cpu))`;
for quarter-integral `memPerCore` the product is exact in float64 and in
the six-decimal rendering, so the resulting quantity is exactly
`quarters * cpu * 2^28` bytes with `BinarySI` format. -/
def generateInstanceTypes (platform : PlatformId) (cfg : InstanceConfiguration) :
    List InstanceType :=
  cfg.vCPU.flatMap fun cpu =>
    cfg.memoryPerCoreQuarters.map fun quarters =>
      { platform := platform
        cpu := ⟨(cpu : Int), .decimalSI⟩
        memory := ⟨(quarters * cpu * 2 ^ 28 : Nat), .binarySI⟩
        coreFraction := cfg.coreFraction }

/-- Every instance-type descriptor generated from the platform
configuration table (`buildNamesInstanceType` enumerates exactly these). -/
def allLegalInstanceTypes : List InstanceType :=
  ruAvailableConfigurations.flatMap fun pc =>
    pc.2.flatMap fun cfg => generateInstanceTypes pc.1 cfg

/-! ## Association-list lookup (model of Go map indexing) -/

def mapLookup {α β : Type} [DecidableEq α] (k : α) : List (α × β) → Option β
  | [] => none
  | kv :: rest => if k = kv.1 then some kv.2 else mapLookup k rest

/-! ## Pricing (pkg/providers/pricing, ru pricing table)

Prices are float64 in Go; every table entry has exactly four decimal
digits, so they are embedded as exact rationals.  The price formulas are
sums of two products with these table constants; exact rational arithmetic
is used in place of float64 evaluation.
-/

structure PricingPlatform where
  perFraction : List (CoreFraction × Int)
  preemptiblePerFraction : List (CoreFraction × Int)
  ram : Int
  preemptibleRAM : Int
  deriving DecidableEq, Repr

/-- `ruPricing` (generated table in the pricing package); prices are in
ten-thousandths of a rouble per hour (each Go float64 entry has exactly
four decimal digits). -/
def ruPricing : List (PlatformId × PricingPlatform) :=
  [ (PlatformAMDZen3,
      { perFraction := [(CoreFraction20, 4752), (CoreFraction50, 6912),
          (CoreFraction100, 11340)]
        preemptiblePerFraction := [(CoreFraction20, 1512),
          (CoreFraction50, 2160), (CoreFraction100, 3132)]
        ram := 3024
        preemptibleRAM := 756 }),
    (PlatformAmdZen4ComputeOptimized,
      { perFraction := [(CoreFraction20, 4580), (CoreFraction50, 11450),
          (CoreFraction100, 22900)]
        preemptiblePerFraction := [(CoreFraction20, 1374),
          (CoreFraction50, 3435), (CoreFraction100, 16030)]
        ram := 4200
        preemptibleRAM := 1260 }),
    (PlatformIntelBroadwell,
      { perFraction := [(CoreFraction5, 3193), (CoreFraction20, 9064),
          (CoreFraction100, 11536)]
        preemptiblePerFraction := [(CoreFraction5, 1957),
          (CoreFraction20, 2781), (CoreFraction100, 3502)]
        ram := 4017
        preemptibleRAM := 1236 }),
    (PlatformIntelCascadeLake,
      { perFraction := [(CoreFraction5, 1728), (CoreFraction20, 5292),
          (CoreFraction50, 7776), (CoreFraction100, 12852)]
        preemptiblePerFraction := [(CoreFraction5, 1080),
          (CoreFraction20, 1728), (CoreFraction50, 2376),
          (CoreFraction100, 3456)]
        ram := 3348
        preemptibleRAM := 756 }),
    (PlatformIntelIceLake,
      { perFraction := [(CoreFraction20, 4752), (CoreFraction50, 6912),
          (CoreFraction100, 11340)]
        preemptiblePerFraction := [(CoreFraction20, 1512),
          (CoreFraction50, 2160), (CoreFraction100, 3132)]
        ram := 3024
        preemptibleRAM := 756 }),
    (PlatformIntelIceLakeComputeOptimized,
      { perFraction := [(CoreFraction100, 19008)]
        preemptiblePerFraction := []
        ram := 3456
        preemptibleRAM := 0 }) ]

/-- `resource.Quantity.AsApproximateFloat64` for an integral quantity. -/
def quantityApprox (q : Quantity) : ℚ := (q.value : ℚ)

/-- Memory expressed in GiB: `float64(q.Value())/1024/1024/1024`. -/
def memoryGiB (q : Quantity) : ℚ := (q.value : ℚ) / (1024 * 1024 * 1024)

/-- A table price (in ten-thousandths) as a rational price per hour. -/
def tablePrice (p : Int) : ℚ := (p : ℚ) / 10000

/-- `DefaultProvider.OnDemandPrice` over the fixed `ruPricing` mapping:
per-fraction CPU unit price times CPU count plus RAM unit price times
memory in GiB; `none` when the platform or fraction has no entry. -/
def onDemandPrice (it : InstanceType) : Option ℚ := do
  let platform ← mapLookup it.platform ruPricing
  let cpuPrice ← mapLookup it.coreFraction platform.perFraction
  pure (tablePrice cpuPrice * quantityApprox it.cpu +
    tablePrice platform.ram * memoryGiB it.memory)

/-- `DefaultProvider.SpotPrice` over the fixed `ruPricing` mapping. -/
def spotPrice (it : InstanceType) : Option ℚ := do
  let platform ← mapLookup it.platform ruPricing
  let cpuPrice ← mapLookup it.coreFraction platform.preemptiblePerFraction
  pure (tablePrice cpuPrice * quantityApprox it.cpu +
    tablePrice platform.preemptibleRAM * memoryGiB it.memory)

/-- Helper for claim C4: every platform row of the pricing table prices
preemptible CPU strictly below on-demand CPU on each fraction present in
both maps, and preemptible RAM at or below on-demand RAM. -/
def spotBelowOnDemandB (pp : PricingPlatform) : Bool :=
  (pp.preemptiblePerFraction.all fun fc =>
    match mapLookup fc.1 pp.perFraction with
    | some cod => fc.2 < cod
    | none => false) &&
  pp.preemptibleRAM ≤ pp.ram

/-! ## Node-class validation (pkg/controllers/nodeclass/validation.go) -/

def MB : Int := 2 ^ 20
def GB : Int := 2 ^ 30
def TB : Int := 2 ^ 40
def stepNetworkDiskBytes : Int := 4 * MB
def maxDefaultBytes : Int := 8 * TB
def stepNonReplicated : Int := 93 * GB

structure DiskRules where
  minBytes : Int
  stepBytes : Int
  maxBytes : Int
  deriving DecidableEq, Repr

/-- `rulesForDiskType`: `(diskRules, bool)` becomes `Option DiskRules`. -/
def rulesForDiskType (t : String) : Option DiskRules :=
  if t = "network-ssd" ∨ t = "network-hdd" then
    some ⟨stepNetworkDiskBytes, stepNetworkDiskBytes, maxDefaultBytes⟩
  else if t = "network-ssd-nonreplicated" ∨ t = "network-ssd-io-m3" then
    some ⟨stepNonReplicated, stepNonReplicated, 256 * TB⟩
  else none

/-- The fields of `v1alpha1.YandexNodeClassSpec` read by the validation
checks (`validateDisk` and `validateSAN`).  `CoreFraction` is a string
type in the API package. -/
structure NodeClassValidationSpec where
  diskType : String
  diskSize : Quantity
  softwareAcceleratedNetworkSettings : Bool
  coreFractions : List String
  deriving DecidableEq, Repr

/-- `validateDisk` returning `(reason, msg)`.  The Go function computes a
defaulted local `diskType` that it never reads (it calls
`rulesForDiskType(spec.DiskType)` with the raw field), so that dead local
is omitted here. -/
def validateDisk (spec : NodeClassValidationSpec) : String × String :=
  let sizeBytes := spec.diskSize.value
  if sizeBytes ≤ 0 then ("InvalidDiskSize", "spec.diskSize must be > 0")
  else
    match rulesForDiskType spec.diskType with
    | none => ("InvalidDiskType", "unsupported spec.diskType=\"" ++ spec.diskType ++ "\"")
    | some r =>
      if r.minBytes > 0 ∧ sizeBytes < r.minBytes then
        ("InvalidDiskSize", "spec.diskSize must be >= " ++
          quantityString ⟨r.minBytes, .binarySI⟩ ++ " for diskType=" ++ spec.diskType)
      else if r.stepBytes > 0 ∧ sizeBytes % r.stepBytes ≠ 0 then
        ("InvalidDiskSize", "spec.diskSize must be a multiple of " ++
          quantityString ⟨r.stepBytes, .binarySI⟩ ++ " for diskType=" ++ spec.diskType)
      else if r.maxBytes > 0 ∧ sizeBytes > r.maxBytes then
        ("InvalidDiskSize", "spec.diskSize must be <= " ++
          quantityString ⟨r.maxBytes, .binarySI⟩ ++ " for diskType=" ++
          (if spec.diskType = "" then "network-ssd" else spec.diskType))
      else ("", "")

/-- The disk types carrying rules, for quantified statements. -/
def supportedDiskTypes : List String :=
  ["network-ssd", "network-hdd", "network-ssd-nonreplicated", "network-ssd-io-m3"]

/-- `validateSAN`: software-accelerated networking may only be enabled when
the configured core fractions include the maximum tier (the `for` loop
returns success on the first fraction equal to `"100"`). -/
def validateSAN (spec : NodeClassValidationSpec) : String × String :=
  if ¬spec.softwareAcceleratedNetworkSettings then ("", "")
  else if spec.coreFractions = [] then ("", "")
  else if spec.coreFractions.any (fun cf => cf = "100") then ("", "")
  else ("InvalidSANCoreFractions",
    "softwareAcceleratedNetworkSettings=true requires core_fractions to include 100 ")

/-! ## Go panic modelling -/

/-- Result of a Go computation that can `panic`: either a value or a panic
with its message.  Distinct from error returns, which are modelled with
`Option`/`Except`. -/
inductive GoResult (α : Type) where
  | ok (val : α)
  | panic (msg : String)
  deriving DecidableEq, Repr

/-! ## karpenter scheduling requirements (In-operator fragment)

Every requirement constructed in this repository uses the `In` node
selector operator, so `scheduling.Requirements` is modelled as an
association list from label key to the list of allowed values.
-/

abbrev Requirements := List (String × List String)

def capacityTypeLabelKey : String := "karpenter.sh/capacity-type"
def labelTopologyZone : String := "topology.kubernetes.io/zone"
def labelFailureDomainBetaZone : String := "failure-domain.beta.kubernetes.io/zone"
def labelInstanceTypeStable : String := "node.kubernetes.io/instance-type"
def labelInstanceTypeBeta : String := "beta.kubernetes.io/instance-type"
def labelArchStable : String := "kubernetes.io/arch"
def labelOSStable : String := "kubernetes.io/os"
def nodePoolLabelKey : String := "karpenter.sh/nodepool"
def nodeClassLabelKey : String := "karpenter.yandex.cloud/yandexnodeclass"
def capacityTypeOnDemand : String := "on-demand"
def capacityTypeSpot : String := "spot"

/-- `Requirements.Get(key).Values()`: a missing key yields no values. -/
def reqsGet (r : Requirements) (key : String) : List String :=
  (mapLookup key r).getD []

/-- `Requirements.Intersects` for In-operator requirements: every key of
the receiver must have a nonempty value intersection with the other side
(a key absent from the other side behaves as an `Exists` requirement,
leaving the receiver's values unchanged). -/
def reqsIntersects (r other : Requirements) : Bool :=
  r.all fun kv =>
    match mapLookup kv.1 other with
    | none => !kv.2.isEmpty
    | some ws => kv.2.any (fun v => decide (v ∈ ws))

/-- `Requirements.IsCompatible(other, allowUndefined)` for In-operator
requirements: every key of `other` must be defined on the receiver unless
listed in `allowUndefined`, and the requirements must intersect. -/
def reqsIsCompatible (r other : Requirements) (allowUndefined : List String) : Bool :=
  (other.all fun kv => (mapLookup kv.1 r).isSome || decide (kv.1 ∈ allowUndefined)) &&
    reqsIntersects r other

/-- `Requirements.Add`: each added requirement is intersected with an
existing requirement on the same key, otherwise appended. -/
def reqsAdd (r : Requirements) (newReqs : Requirements) : Requirements :=
  newReqs.foldl
    (fun acc kv =>
      match mapLookup kv.1 acc with
      | some old => acc.map fun kv2 =>
          if kv2.1 = kv.1 then (kv.1, kv.2.filter (fun v => decide (v ∈ old))) else kv2
      | none => acc ++ [kv])
    r

/-- The subset of karpenter's well-known labels relevant here (the
`AllowUndefinedWellKnownLabels` check is only ever exercised on the
capacity-type and zone keys that offerings carry). -/
def wellKnownLabels : List String :=
  [labelTopologyZone, labelFailureDomainBetaZone, labelInstanceTypeStable,
   labelInstanceTypeBeta, labelArchStable, labelOSStable, capacityTypeLabelKey,
   nodePoolLabelKey]

/-! ## cloudprovider offerings and instance types -/

structure Offering where
  requirements : Requirements
  price : ℚ
  available : Bool
  deriving DecidableEq, Repr

/-- `Offering.CapacityType()` (`Get(key).Any()`; here requirements are
single-valued, so the first value). -/
def offeringCapacityType (o : Offering) : String :=
  (reqsGet o.requirements capacityTypeLabelKey).headD ""

/-- `Offering.Zone()`. -/
def offeringZone (o : Offering) : String :=
  (reqsGet o.requirements labelTopologyZone).headD ""

/-- `Offerings.Compatible(reqs)`: keep offerings where
`reqs.IsCompatible(offering.Requirements, AllowUndefinedWellKnownLabels)`. -/
def offeringsCompatible (offs : List Offering) (reqs : Requirements) : List Offering :=
  offs.filter fun o => reqsIsCompatible reqs o.requirements wellKnownLabels

/-- `Offerings.Available()`. -/
def offeringsAvailable (offs : List Offering) : List Offering :=
  offs.filter (·.available)

/-- `Offerings.Cheapest().Price` (`lo.MinBy` on price; only used inside
sort comparators, always on nonempty lists there). -/
def offeringsCheapestPrice : List Offering → ℚ
  | [] => 0
  | o :: rest => rest.foldl (fun m o2 => if o2.price < m then o2.price else m) o.price

/-- `cloudprovider.InstanceType`: name, requirements, offerings, capacity
and the total of the overhead block.  Resource lists are maps from
resource name to an integral base-unit amount. -/
structure KInstanceType where
  name : String
  requirements : Requirements
  offerings : List Offering
  capacity : List (String × Int)
  overhead : List (String × Int)
  deriving DecidableEq, Repr

/-- `InstanceType.Allocatable()`: capacity minus overhead total. -/
def allocatable (it : KInstanceType) : List (String × Int) :=
  it.capacity.map fun kv => (kv.1, kv.2 - (mapLookup kv.1 it.overhead).getD 0)

/-- `resources.Fits(candidate, total)`: each requested amount is at most
the corresponding total (missing resources count as zero). -/
def fits (requests total : List (String × Int)) : Bool :=
  requests.all fun kv => kv.2 ≤ (mapLookup kv.1 total).getD 0

/-! ## Offering resolver (pkg/providers/instancetype/offering/offering.go) -/

def zeroInstanceType : InstanceType := ⟨"", ⟨0, .decimalSI⟩, ⟨0, .decimalSI⟩, 0⟩

/-- `InstanceType.FromString` called on a zero-valued receiver with the
error ignored (`_ = itName.FromString(it.Name)`): fields parsed before the
first failure stay set, the rest keep their zero values. -/
def fromStringMut (s : String) : InstanceType :=
  match splitOnChar '_' s with
  | [p, c, m, f] =>
    let r := { zeroInstanceType with platform := p }
    match parseQuantity c with
    | none => r
    | some cpu =>
      let r := { r with cpu := cpu }
      match parseQuantity m with
      | none => r
      | some mem =>
        let r := { r with memory := mem }
        match parseInt f with
        | none => r
        | some fr => { r with coreFraction := fr }
  | _ => zeroInstanceType

/-- Inner loop of `createOfferings` over the capacity-type values of one
zone: on-demand and spot look up a price (`(0, false)` when absent), any
other capacity type panics with the source's message. -/
def offeringsForCapacityTypes (itName : InstanceType) (name : String)
    (itZones : List String) (zone : String) : List String → GoResult (List Offering)
  | [] => .ok []
  | ct :: rest =>
    let mkRest := offeringsForCapacityTypes itName name itZones zone rest
    let withPrice : ℚ × Bool → GoResult (List Offering) := fun pr =>
      match mkRest with
      | .panic m => .panic m
      | .ok offs =>
        .ok ({ requirements := [(capacityTypeLabelKey, [ct]), (labelTopologyZone, [zone])]
               price := pr.1
               available := pr.2 && decide (zone ∈ itZones) } :: offs)
    if ct = capacityTypeOnDemand then
      withPrice ((onDemandPrice itName).getD 0, (onDemandPrice itName).isSome)
    else if ct = capacityTypeSpot then
      withPrice ((spotPrice itName).getD 0, (spotPrice itName).isSome)
    else
      .panic ("invalid capacity type \"" ++ ct ++ "\" in requirements for instance type \""
        ++ name ++ "\"")

def createOfferingsAux (itName : InstanceType) (name : String) (itZones : List String)
    (capTypes : List String) : List String → GoResult (List Offering)
  | [] => .ok []
  | zone :: zrest =>
    match offeringsForCapacityTypes itName name itZones zone capTypes with
    | .panic m => .panic m
    | .ok offs =>
      match createOfferingsAux itName name itZones capTypes zrest with
      | .panic m => .panic m
      | .ok more => .ok (offs ++ more)

/-- `DefaultProvider.createOfferings`: one offering per
(zone × requested capacity type), priced through the pricing provider,
available iff the price is known and the zone is among the instance
type's zone requirement.  Go iterates a zone set (random order); the model
takes the zones as a list, no claim depends on the order. -/
def createOfferings (it : KInstanceType) (allZones : List String) : GoResult (List Offering) :=
  let itZones := reqsGet it.requirements labelTopologyZone
  let itName := fromStringMut it.name
  createOfferingsAux itName it.name itZones
    (reqsGet it.requirements capacityTypeLabelKey) allZones

/-- `DefaultProvider.InjectOfferings`: one-level-deep copy of each instance
type with freshly created offerings. -/
def injectOfferings (allZones : List String) :
    List KInstanceType → GoResult (List KInstanceType)
  | [] => .ok []
  | it :: rest =>
    match createOfferings it allZones with
    | .panic m => .panic m
    | .ok offs =>
      match injectOfferings allZones rest with
      | .panic m => .panic m
      | .ok more => .ok ({ it with offerings := offs } :: more)

/-- Modelled from the spec: the four-argument `Resolver.Resolve` /
`computeRequirements` implementation taking the platform configuration's
`CanBePreemptible` flag is not among the source files (only its caller
`generateTypesFor` and the expectations in `types_test.go` are).  Per the
spec, offerings for the discounted capacity type are only generated when
the owning platform's can-be-discounted flag is true, so the capacity-type
requirement is `[on-demand]`, extended with `spot` exactly when the flag
is set; the remaining requirement keys follow the three-argument
`computeRequirements` present in the sources (zones come from the node
class's resolved subnets). -/
def computeRequirements (info : InstanceType) (availableZones : List String)
    (canBePreemptible : Bool) : Requirements :=
  [ (labelInstanceTypeStable, [info.platform]),
    (labelInstanceTypeBeta, [info.platform]),
    (labelArchStable, ["amd64"]),
    (labelOSStable, ["linux"]),
    (labelTopologyZone, availableZones),
    (labelFailureDomainBetaZone, availableZones),
    (capacityTypeLabelKey,
      if canBePreemptible then [capacityTypeOnDemand, capacityTypeSpot]
      else [capacityTypeOnDemand]),
    ("yandex.cloud/pci-topology", ["k8s"]),
    ("yandex.cloud/preemptible", ["true", "false"]) ]

/-- `computeCapacity`: CPU, memory, ephemeral storage (the node class's
disk size) and pods. -/
def computeCapacity (info : InstanceType) (diskSize : Quantity) (maxPods : Int) :
    List (String × Int) :=
  [("cpu", info.cpu.value), ("memory", info.memory.value),
   ("ephemeral-storage", diskSize.value), ("pods", maxPods)]

/-- `NewInstanceType` / `Resolve`: canonical name, requirements, empty
offerings (filled by `InjectOfferings`).  The float-valued `Overhead`
block (kubeReserved / eviction thresholds) is not referred to by any
claim and is modelled as empty. -/
def resolveInstanceType (info : InstanceType) (availableZones : List String)
    (canBePreemptible : Bool) (diskSize : Quantity) (maxPods : Int) : KInstanceType :=
  { name := instanceTypeString info
    requirements := computeRequirements info availableZones canBePreemptible
    offerings := []
    capacity := computeCapacity info diskSize maxPods
    overhead := [] }

/-- `generateTypesFor` for a single configuration row: generate the cross
product, resolve each descriptor, then inject offerings. -/
def generateTypesFor (platform : PlatformId) (cfg : InstanceConfiguration)
    (availableZones : List String) (diskSize : Quantity) (maxPods : Int)
    (allZones : List String) : GoResult (List KInstanceType) :=
  injectOfferings allZones
    ((generateInstanceTypes platform cfg).map fun t =>
      resolveInstanceType t availableZones cfg.canBePreemptible diskSize maxPods)

/-! ## The selection step of CloudProvider.Create -/

/-- `CloudProvider.resolveInstanceTypes`: keep instance types with at
least one compatible available offering whose allocatable resources fit
the requests, then sort ascending by cheapest compatible available price
(`sort.Slice` guarantees sortedness w.r.t. the comparator; modelled with
insertion sort). -/
def resolveInstanceTypesFn (its : List KInstanceType) (reqs : Requirements)
    (requests : List (String × Int)) : List KInstanceType :=
  let filtered := its.filter fun i =>
    !(offeringsAvailable (offeringsCompatible i.offerings reqs)).isEmpty &&
      fits requests (allocatable i)
  List.insertionSort
    (fun a b =>
      ¬(offeringsCheapestPrice (offeringsAvailable (offeringsCompatible b.offerings reqs)) <
        offeringsCheapestPrice (offeringsAvailable (offeringsCompatible a.offerings reqs))))
    filtered

/-- The second filter inside `Create`: each offering's requirements are
augmented (`Add`) with the instance type's requirements plus the node-pool
and node-class labels of the claim, and the offering is kept when the
augmented requirements are compatible with the claim's requirements; the
instance type is kept when at least one offering survives. -/
def createSecondFilter (its : List KInstanceType) (reqs : Requirements)
    (poolVal classVal : String) : List KInstanceType :=
  its.filterMap fun it =>
    let offs := it.offerings.filterMap fun off =>
      let augmented := reqsAdd off.requirements
        (it.requirements ++ [(nodePoolLabelKey, [poolVal]), (nodeClassLabelKey, [classVal])])
      if reqsIsCompatible augmented reqs [] then some { off with requirements := augmented }
      else none
    if offs.isEmpty then none else some { it with offerings := offs }

inductive SelectOutcome where
  | insufficientCapacity
  | panicked
  | selected (it : KInstanceType) (off : Offering)
  deriving DecidableEq, Repr

def defaultOffering : Offering := ⟨[], 0, false⟩

/-- The selection step of `CloudProvider.Create` (after node-class
resolution): resolve and filter instance types, return an explicit
insufficient-capacity error when the resolved set is empty, apply the
second compatibility filter, take the first element, and draw a spot
offering when present else any available offering.  `rand.Intn(n)` for
`n > 0` is modelled by an arbitrary `pick` modulo `n`; `rand.Intn(0)` and
indexing an empty slice panic. -/
def createSelect (its : List KInstanceType) (reqs : Requirements)
    (requests : List (String × Int)) (poolVal classVal : String) (pick : Nat) :
    SelectOutcome :=
  let types := resolveInstanceTypesFn its reqs requests
  if types.isEmpty then .insufficientCapacity
  else
    match createSecondFilter types reqs poolVal classVal with
    | [] => .panicked
    | it :: _ =>
      let avail := offeringsAvailable it.offerings
      let spotOffs := avail.filter fun off => offeringCapacityType off = capacityTypeSpot
      if spotOffs.length > 0 then
        .selected it (spotOffs.getD (pick % spotOffs.length) defaultOffering)
      else if avail.length > 0 then
        .selected it (avail.getD (pick % avail.length) defaultOffering)
      else .panicked

/-! ## Node-group lifecycle (pkg/yandex/sdk.go) -/

/-- The fields of a `k8s.NodeGroup` observed by the embedded lifecycle
operations. -/
structure NodeGroup where
  id : String
  name : String
  clusterId : String
  folderId : String
  labels : List (String × String)
  deriving DecidableEq, Repr

structure Operation where
  nodeGroupId : String
  metadataTypeUrl : String
  deriving DecidableEq, Repr

/-- External compute state: the cluster this provider manages and the
provider-side node groups and operations. -/
structure YCState where
  clusterId : String
  clusterFolderId : String
  nodeGroups : List NodeGroup
  operations : List Operation
  deriving DecidableEq, Repr

/-- `YCSDK.ListNodeGroups`: node groups in the cluster's folder, filtered
to this cluster and to the `managed-by: karpenter` marker. -/
def listNodeGroups (st : YCState) : List NodeGroup :=
  (st.nodeGroups.filter fun ng => ng.folderId = st.clusterFolderId).filter
    fun ng => ng.clusterId = st.clusterId ∧ mapLookup "managed-by" ng.labels = some "karpenter"

/-- `strings.ToLower` restricted to ASCII (the only values the embedded
claims exercise are already ASCII). -/
def charToLower (c : Char) : Char :=
  if 'A' ≤ c ∧ c ≤ 'Z' then Char.ofNat (c.toNat + 32) else c

def goToLower (s : String) : String := (s.toList.map charToLower).asString

/-- Go map assignment `labels[k] = v` on an association list. -/
def setLabel (labels : List (String × String)) (k v : String) : List (String × String) :=
  if (mapLookup k labels).isSome then
    labels.map fun kv => if kv.1 = k then (k, v) else kv
  else labels ++ [(k, v)]

/-- `YCSDK.CreateFixedNodeGroup` restricted to the state the claims
observe: list the managed node groups and return an existing identifier on
a name match; otherwise stamp `managed-by: karpenter`, overlay the
lower-cased node labels, and create the group (the provider-assigned
identifier is the input `freshId`).  The returned flag records whether a
provider Create call was issued. -/
def createFixedNodeGroup (st : YCState) (freshId : String) (name : String)
    (labels nodeLabels : List (String × String)) : String × YCState × Bool :=
  match (listNodeGroups st).find? (fun ng => ng.name = name) with
  | some ng => (ng.id, st, false)
  | none =>
    let allLabels := nodeLabels.foldl
      (fun acc kv => setLabel acc kv.1 (goToLower kv.2))
      (setLabel labels "managed-by" "karpenter")
    let ng : NodeGroup := ⟨freshId, name, st.clusterId, st.clusterFolderId, allLabels⟩
    (freshId, { st with nodeGroups := st.nodeGroups ++ [ng] }, true)

/-- `strings.Contains`. -/
def containsSub (sub : List Char) : List Char → Bool
  | [] => sub.isEmpty
  | c :: cs => sub.isPrefixOf (c :: cs) || containsSub sub cs

def goContains (s sub : String) : Bool := containsSub sub.toList s.toList

/-- `YCSDK.DeleteNodeGroup`: list the node group's operations; when one is
a delete operation (its metadata type URL contains `DeleteNodeGroup`) the
deletion is already in flight and the call is a successful no-op;
otherwise a provider Delete call is issued (its operation is recorded).
Provider transport errors are environment faults outside the model.  The
returned flag records whether a Delete call was issued. -/
def deleteNodeGroup (st : YCState) (ngId : String) : YCState × Bool :=
  let ops := st.operations.filter fun op => op.nodeGroupId = ngId
  let deleting := ops.filter fun op => goContains op.metadataTypeUrl "DeleteNodeGroup"
  if deleting.length > 0 then (st, false)
  else
    ({ st with operations :=
        st.operations ++ [⟨ngId, "type.googleapis.com/yandex.cloud.k8s.v1.DeleteNodeGroupMetadata"⟩] },
      true)

/-! ## Subnet provider (pkg/providers/subnet) -/

structure VpcSubnet where
  id : String
  zoneId : String
  labels : List (String × String)
  v4CidrBlocks : List String
  deriving DecidableEq, Repr

/-- The VPC data the subnet provider reads: the network's subnets and the
in-use address count per subnet. -/
structure SubnetAPI where
  subnets : List VpcSubnet
  usedIPs : List (String × Int)
  deriving DecidableEq, Repr

def usedIPsInSubnet (api : SubnetAPI) (subnetId : String) : Int :=
  (mapLookup subnetId api.usedIPs).getD 0

structure SubnetSelectorTerm where
  id : String
  labels : List (String × String)
  deriving DecidableEq, Repr

/-- `yandex.MatchLabels`. -/
def matchLabels (current wanted : List (String × String)) : Bool :=
  wanted.all fun kv =>
    match mapLookup kv.1 current with
    | none => false
    | some v => kv.2 = "*" || v = kv.2

/-- The keep condition of the subnet loop in `DefaultProvider.List`. -/
def keepSubnet (terms : List SubnetSelectorTerm) (sn : VpcSubnet) : Bool :=
  terms.any fun term =>
    (term.id ≠ "" && sn.id = term.id) ||
      (!term.labels.isEmpty && matchLabels sn.labels term.labels)

/-- Mask size of an IPv4 CIDR (`net.ParseCIDR` restricted to the
dotted-quad grammar `a.b.c.d/m` with octets below 256 and mask at most
32). -/
def parseCIDRMask (s : String) : Option Nat :=
  match splitOnChar '/' s with
  | [ip, m] =>
    let octets := splitOnChar '.' ip
    if octets.length = 4 ∧ octets.all fun o =>
        match digitsToNat o.toList with
        | some v => v ≤ 255
        | none => false then
      match digitsToNat m.toList with
      | some mv => if mv ≤ 32 then some mv else none
      | none => none
    else none
  | _ => none

/-- `calculateIPs`: `2^(32-mask) - 2` usable addresses, floored at zero
for /31 and /32 (`math.Pow` is exact on these inputs). -/
def calculateIPs (cidr : String) : Option Int :=
  (parseCIDRMask cidr).map fun m =>
    let total : Int := 2 ^ (32 - m) - 2
    if total < 0 then 0 else total

structure Subnet where
  id : String
  zoneId : String
  availableIPAddressCount : Int
  deriving DecidableEq, Repr

/-- The comparator passed to `sort.Slice` in `DefaultProvider.List`. -/
def subnetLess (a b : Subnet) : Bool :=
  if a.availableIPAddressCount = b.availableIPAddressCount then a.zoneId < b.zoneId
  else a.availableIPAddressCount > b.availableIPAddressCount

/-- The non-strict order established by `sort.Slice` with `subnetLess`. -/
def subnetLE (a b : Subnet) : Prop := subnetLess b a = false

instance : DecidableRel subnetLE := fun a b => by
  unfold subnetLE; infer_instance

def subnetTotalIPs (blocks : List String) : Option Int :=
  (blocks.mapM calculateIPs).map (·.foldl (· + ·) 0)

/-- The fresh-computation path of `subnet.DefaultProvider.List`: filter
subnets through the selector terms, compute available address counts, and
sort with `subnetLess` (`sort.Slice` guarantees sortedness w.r.t. the
comparator; modelled with insertion sort).  `none` models the error path
(malformed CIDR). -/
def listFreshSubnets (api : SubnetAPI) (terms : List SubnetSelectorTerm) :
    Option (List Subnet) := do
  let kept := api.subnets.filter (keepSubnet terms)
  let subs ← kept.mapM fun sn => do
    let total ← subnetTotalIPs sn.v4CidrBlocks
    pure (⟨sn.id, sn.zoneId, total - usedIPsInSubnet api sn.id⟩ : Subnet)
  pure (List.insertionSort subnetLE subs)

/-- Cache of `DefaultProvider.List`, keyed by the selector terms (the
source keys by a hash of the terms; the model keys by the terms
themselves). -/
abbrev SubnetCache := List (List SubnetSelectorTerm × List Subnet)

/-- `subnet.DefaultProvider.List`: serve a copy of the cached list when
present, otherwise compute, cache and return the fresh list. -/
def subnetProviderList (api : SubnetAPI) (cache : SubnetCache)
    (terms : List SubnetSelectorTerm) : Option (List Subnet × SubnetCache) :=
  match mapLookup terms cache with
  | some subs => some (subs, cache)
  | none => do
    let subs ← listFreshSubnets api terms
    some (subs, cache ++ [(terms, subs)])

/-- The order claim C10 asserts on returned subnet lists: available-IP
count non-increasing, ties broken by zone id ascending. -/
def subnetClaimOrder (a b : Subnet) : Prop :=
  a.availableIPAddressCount > b.availableIPAddressCount ∨
    (a.availableIPAddressCount = b.availableIPAddressCount ∧ a.zoneId ≤ b.zoneId)

/-- The invariant claim C10 asserts of every returned subnet list: the
list is sorted by `subnetClaimOrder`, and every entry's available count is
the sum over the subnet's CIDR blocks of `2^(32-mask) - 2` usable
addresses (floored at zero) minus the in-use address count. -/
def subnetResultGood (api : SubnetAPI) (subs : List Subnet) : Prop :=
  List.Pairwise subnetClaimOrder subs ∧
    ∀ s ∈ subs, ∃ sn ∈ api.subnets, s.id = sn.id ∧ s.zoneId = sn.zoneId ∧
      ∃ masks : List Nat, sn.v4CidrBlocks.mapM parseCIDRMask = some masks ∧
        s.availableIPAddressCount =
          (masks.map fun m => max ((2 : Int) ^ (32 - m) - 2) 0).foldl (· + ·) 0 -
            usedIPsInSubnet api sn.id

def subnetCacheGood (api : SubnetAPI) (cache : SubnetCache) : Prop :=
  ∀ kv ∈ cache, subnetResultGood api kv.2

instance : IsTotal Subnet subnetLE := by
  constructor
  intro a b
  by_cases h : subnetLess b a = false
  · exact Or.inl h
  · right
    have hba : subnetLess b a = true := by
      revert h
      cases subnetLess b a <;> simp
    rw [subnetLess] at hba
    rw [subnetLE, subnetLess]
    by_cases hc : b.availableIPAddressCount = a.availableIPAddressCount
    · rw [if_pos hc] at hba
      rw [if_pos hc.symm]
      have hlt : b.zoneId < a.zoneId := of_decide_eq_true hba
      exact decide_eq_false (fun hab => absurd hab (lt_asymm hlt))
    · rw [if_neg hc] at hba
      rw [if_neg (fun he => hc he.symm)]
      have hgt := of_decide_eq_true hba
      exact decide_eq_false (by omega)

instance : IsTrans Subnet subnetLE := by
  constructor
  intro a b c hab hbc
  rw [subnetLE, subnetLess] at hab hbc
  rw [subnetLE, subnetLess]
  by_cases h1 : b.availableIPAddressCount = a.availableIPAddressCount
  · rw [if_pos h1] at hab
    have hza : a.zoneId ≤ b.zoneId := le_of_not_lt (of_decide_eq_false hab)
    by_cases h2 : c.availableIPAddressCount = b.availableIPAddressCount
    · rw [if_pos h2] at hbc
      have hzb : b.zoneId ≤ c.zoneId := le_of_not_lt (of_decide_eq_false hbc)
      rw [if_pos (h2.trans h1)]
      exact decide_eq_false (not_lt.mpr (hza.trans hzb))
    · rw [if_neg h2] at hbc
      have hcb : c.availableIPAddressCount ≤ b.availableIPAddressCount :=
        le_of_not_lt (of_decide_eq_false hbc)
      have hne : c.availableIPAddressCount ≠ a.availableIPAddressCount := by omega
      rw [if_neg hne]
      exact decide_eq_false (by omega)
  · rw [if_neg h1] at hab
    have hba : b.availableIPAddressCount ≤ a.availableIPAddressCount :=
      le_of_not_lt (of_decide_eq_false hab)
    by_cases h2 : c.availableIPAddressCount = b.availableIPAddressCount
    · have hne : c.availableIPAddressCount ≠ a.availableIPAddressCount := by omega
      rw [if_neg hne]
      exact decide_eq_false (by omega)
    · rw [if_neg h2] at hbc
      have hcb : c.availableIPAddressCount ≤ b.availableIPAddressCount :=
        le_of_not_lt (of_decide_eq_false hbc)
      have hne : c.availableIPAddressCount ≠ a.availableIPAddressCount := by omega
      rw [if_neg hne]
      exact decide_eq_false (by omega)

/-! ## Claim C1: round trip of the canonical instance-type name -/

set_option maxRecDepth 20000 in
theorem roundtrip_cfgs_amdEpyc9474F :
    ∀ it ∈ cfgsAMDEPYC9474FGen2.flatMap fun cfg =>
        generateInstanceTypes PlatformAMDEPYC9474FGen2 cfg,
      instanceTypeFromString (instanceTypeString it) = some it := by
  decide

set_option maxRecDepth 20000 in
theorem roundtrip_cfgs_amdEpycA100 :
    ∀ it ∈ cfgsAMDEPYCNVIDIAAmpereA100.flatMap fun cfg =>
        generateInstanceTypes PlatformAMDEPYCNVIDIAAmpereA100 cfg,
      instanceTypeFromString (instanceTypeString it) = some it := by
  decide

set_option maxRecDepth 20000 in
set_option maxHeartbeats 4000000 in
theorem roundtrip_cfgs_broadwell :
    ∀ it ∈ cfgsIntelBroadwell.flatMap fun cfg =>
        generateInstanceTypes PlatformIntelBroadwell cfg,
      instanceTypeFromString (instanceTypeString it) = some it := by
  decide

set_option maxRecDepth 20000 in
theorem roundtrip_cfgs_broadwellV100 :
    ∀ it ∈ cfgsIntelBroadwellNVIDIATeslaV100.flatMap fun cfg =>
        generateInstanceTypes PlatformIntelBroadwellNVIDIATeslaV100 cfg,
      instanceTypeFromString (instanceTypeString it) = some it := by
  decide

set_option maxRecDepth 20000 in
set_option maxHeartbeats 4000000 in
theorem roundtrip_cfgs_cascadeLake :
    ∀ it ∈ cfgsIntelCascadeLake.flatMap fun cfg =>
        generateInstanceTypes PlatformIntelCascadeLake cfg,
      instanceTypeFromString (instanceTypeString it) = some it := by
  decide

set_option maxRecDepth 20000 in
theorem roundtrip_cfgs_cascadeLakeV100 :
    ∀ it ∈ cfgsIntelCascadeLakeNVIDIATeslaV100.flatMap fun cfg =>
        generateInstanceTypes PlatformIntelCascadeLakeNVIDIATeslaV100 cfg,
      instanceTypeFromString (instanceTypeString it) = some it := by
  decide

set_option maxRecDepth 20000 in
set_option maxHeartbeats 4000000 in
theorem roundtrip_cfgs_iceLake :
    ∀ it ∈ cfgsIntelIceLake.flatMap fun cfg =>
        generateInstanceTypes PlatformIntelIceLake cfg,
      instanceTypeFromString (instanceTypeString it) = some it := by
  decide

set_option maxRecDepth 20000 in
set_option maxHeartbeats 4000000 in
theorem roundtrip_cfgs_iceLakeCO :
    ∀ it ∈ cfgsIntelIceLakeComputeOptimized.flatMap fun cfg =>
        generateInstanceTypes PlatformIntelIceLakeComputeOptimized cfg,
      instanceTypeFromString (instanceTypeString it) = some it := by
  decide

set_option maxRecDepth 20000 in
theorem roundtrip_cfgs_iceLakeT4 :
    ∀ it ∈ cfgsIntelIceLakeNVIDIATeslaT4.flatMap fun cfg =>
        generateInstanceTypes PlatformIntelIceLakeNVIDIATeslaT4 cfg,
      instanceTypeFromString (instanceTypeString it) = some it := by
  decide

set_option maxRecDepth 20000 in
theorem roundtrip_cfgs_iceLakeT4i :
    ∀ it ∈ cfgsIntelIceLakeNVIDIATeslaT4i.flatMap fun cfg =>
        generateInstanceTypes PlatformIntelIceLakeNVIDIATeslaT4i cfg,
      instanceTypeFromString (instanceTypeString it) = some it := by
  decide

/-- Claim C1: for every legal instance-type descriptor generated from the
platform configuration table, decoding its canonical
`platform_cpu_memory_fraction` name succeeds and reconstructs a descriptor
equal to the original: `InstanceType.FromString(d.String())` returns no
error and yields `d`'s platform, CPU, memory and core fraction back. -/
theorem c1_instance_type_name_roundtrip :
    ∀ it ∈ allLegalInstanceTypes,
      instanceTypeFromString (instanceTypeString it) = some it := by
  intro it hit
  rw [allLegalInstanceTypes] at hit
  simp only [ruAvailableConfigurations, List.mem_flatMap, List.mem_cons,
    List.not_mem_nil, or_false] at hit
  obtain ⟨pc, hpc, hmem⟩ := hit
  rcases hpc with rfl | rfl | rfl | rfl | rfl | rfl | rfl | rfl | rfl | rfl
  · exact roundtrip_cfgs_amdEpyc9474F it (List.mem_flatMap.mpr hmem)
  · exact roundtrip_cfgs_amdEpycA100 it (List.mem_flatMap.mpr hmem)
  · exact roundtrip_cfgs_broadwell it (List.mem_flatMap.mpr hmem)
  · exact roundtrip_cfgs_broadwellV100 it (List.mem_flatMap.mpr hmem)
  · exact roundtrip_cfgs_cascadeLake it (List.mem_flatMap.mpr hmem)
  · exact roundtrip_cfgs_cascadeLakeV100 it (List.mem_flatMap.mpr hmem)
  · exact roundtrip_cfgs_iceLake it (List.mem_flatMap.mpr hmem)
  · exact roundtrip_cfgs_iceLakeCO it (List.mem_flatMap.mpr hmem)
  · exact roundtrip_cfgs_iceLakeT4 it (List.mem_flatMap.mpr hmem)
  · exact roundtrip_cfgs_iceLakeT4i it (List.mem_flatMap.mpr hmem)

/-- Witness for C1 at a concrete legal descriptor
(`gpu-standard-v3i_18_576Gi_100`). -/
theorem c1_instance_type_name_roundtrip_witness :
    (⟨PlatformAMDEPYC9474FGen2, ⟨18, .decimalSI⟩, ⟨32 * 18 * 2 ^ 28, .binarySI⟩,
        100⟩ : InstanceType) ∈ allLegalInstanceTypes ∧
      instanceTypeFromString (instanceTypeString
        ⟨PlatformAMDEPYC9474FGen2, ⟨18, .decimalSI⟩, ⟨32 * 18 * 2 ^ 28, .binarySI⟩,
          100⟩) =
        some ⟨PlatformAMDEPYC9474FGen2, ⟨18, .decimalSI⟩,
          ⟨32 * 18 * 2 ^ 28, .binarySI⟩, 100⟩ :=
  ⟨by decide, c1_instance_type_name_roundtrip _ (by decide)⟩

/-! ## Shared helper lemmas -/

theorem mapLookup_mem {α β : Type} [DecidableEq α] {k : α} {v : β} :
    ∀ {m : List (α × β)}, mapLookup k m = some v → (k, v) ∈ m := by
  intro m
  induction m with
  | nil => intro h; simp [mapLookup] at h
  | cons kv rest ih =>
    intro h
    by_cases hk : k = kv.1
    · simp [mapLookup, hk] at h
      subst h
      rw [hk, Prod.mk.eta]
      exact List.mem_cons_self _ _
    · simp [mapLookup, hk] at h
      exact List.mem_cons_of_mem _ (ih h)

theorem mapLookup_nil {α β : Type} [DecidableEq α] (k : α) :
    mapLookup k ([] : List (α × β)) = none := rfl

theorem mapLookup_cons {α β : Type} [DecidableEq α] (k : α) (kv : α × β)
    (rest : List (α × β)) :
    mapLookup k (kv :: rest) = if k = kv.1 then some kv.2 else mapLookup k rest := rfl

theorem mapLookup_append {α β : Type} [DecidableEq α] (k : α) (l1 l2 : List (α × β)) :
    mapLookup k (l1 ++ l2) =
      match mapLookup k l1 with
      | some v => some v
      | none => mapLookup k l2 := by
  induction l1 with
  | nil => rw [List.nil_append, mapLookup_nil]
  | cons head rest ih =>
    rw [List.cons_append, mapLookup_cons, mapLookup_cons]
    by_cases hk : k = head.1
    · rw [if_pos hk, if_pos hk]
    · rw [if_neg hk, if_neg hk, ih]

/-- Every platform row of the pricing table prices preemptible capacity
below on-demand capacity. -/
theorem pricing_table_spot_below :
    (ruPricing.all fun kv => spotBelowOnDemandB kv.2) = true := by
  decide

/-! ## Claim C4: spot price strictly below on-demand price -/

/-- Claim C4: for every instance-type descriptor whose platform and
core-fraction tier have entries in both the on-demand and the preemptible
pricing maps, and whose CPU and memory quantities are positive, the
discounted hourly price computed by `SpotPrice` is strictly less than the
on-demand hourly price computed by `OnDemandPrice`. -/
theorem c4_spot_price_strictly_below_on_demand :
    ∀ (it : InstanceType) (pod psp : ℚ),
      0 < it.cpu.value → 0 < it.memory.value →
      onDemandPrice it = some pod → spotPrice it = some psp →
      psp < pod := by
  intro it pod psp hcpu hmem hod hsp
  cases hpp : mapLookup it.platform ruPricing with
  | none => simp [onDemandPrice, hpp] at hod
  | some pp =>
    cases hcod : mapLookup it.coreFraction pp.perFraction with
    | none => simp [onDemandPrice, hpp, hcod] at hod
    | some cod =>
      cases hcsp : mapLookup it.coreFraction pp.preemptiblePerFraction with
      | none => simp [spotPrice, hpp, hcsp] at hsp
      | some csp =>
        simp only [onDemandPrice, spotPrice, hpp, hcod, hcsp, Option.bind_eq_bind,
          Option.some_bind, Option.some.injEq, pure, bind] at hod hsp
        have hgood : spotBelowOnDemandB pp = true :=
          List.all_eq_true.mp pricing_table_spot_below _ (mapLookup_mem hpp)
        rw [spotBelowOnDemandB, Bool.and_eq_true] at hgood
        have hfr : csp < cod := by
          have h1 := List.all_eq_true.mp hgood.1 _ (mapLookup_mem hcsp)
          simp only [hcod] at h1
          exact of_decide_eq_true h1
        have hram : pp.preemptibleRAM ≤ pp.ram := of_decide_eq_true hgood.2
        have hfrQ : tablePrice csp < tablePrice cod := by
          rw [tablePrice, tablePrice]
          exact (div_lt_div_iff_of_pos_right (by norm_num)).mpr (by exact_mod_cast hfr)
        have hramQ : tablePrice pp.preemptibleRAM ≤ tablePrice pp.ram := by
          rw [tablePrice, tablePrice]
          exact (div_le_div_iff_of_pos_right (by norm_num)).mpr (by exact_mod_cast hram)
        have hcpuQ : (0 : ℚ) < quantityApprox it.cpu := by
          rw [quantityApprox]
          exact_mod_cast hcpu
        have hmemQ : (0 : ℚ) < memoryGiB it.memory := by
          rw [memoryGiB]
          apply div_pos
          · exact_mod_cast hmem
          · norm_num
        have h1 : tablePrice csp * quantityApprox it.cpu <
            tablePrice cod * quantityApprox it.cpu :=
          mul_lt_mul_of_pos_right hfrQ hcpuQ
        have h2 : tablePrice pp.preemptibleRAM * memoryGiB it.memory ≤
            tablePrice pp.ram * memoryGiB it.memory :=
          mul_le_mul_of_nonneg_right hramQ hmemQ.le
        rw [← hod, ← hsp]
        linarith

/-- Witness for C4 at `standard-v3_2_4Gi_100`: on-demand
`1.134*2 + 0.3024*4 = 3.4776`, spot `0.3132*2 + 0.0756*4 = 0.9288`. -/
theorem c4_spot_price_strictly_below_on_demand_witness :
    onDemandPrice ⟨PlatformIntelIceLake, ⟨2, .decimalSI⟩, ⟨2 ^ 32, .binarySI⟩, 100⟩ =
        some (4347 / 1250) ∧
      spotPrice ⟨PlatformIntelIceLake, ⟨2, .decimalSI⟩, ⟨2 ^ 32, .binarySI⟩, 100⟩ =
        some (1161 / 1250) ∧
      (1161 / 1250 : ℚ) < 4347 / 1250 := by
  have hod : onDemandPrice ⟨PlatformIntelIceLake, ⟨2, .decimalSI⟩, ⟨2 ^ 32, .binarySI⟩, 100⟩ =
      some (4347 / 1250) := by
    simp [onDemandPrice, mapLookup, ruPricing, tablePrice, quantityApprox, memoryGiB,
      PlatformIntelIceLake, PlatformAMDZen3, PlatformAmdZen4ComputeOptimized,
      PlatformIntelBroadwell, PlatformIntelCascadeLake, CoreFraction20, CoreFraction50,
      CoreFraction100]
    norm_num
  have hsp : spotPrice ⟨PlatformIntelIceLake, ⟨2, .decimalSI⟩, ⟨2 ^ 32, .binarySI⟩, 100⟩ =
      some (1161 / 1250) := by
    simp [spotPrice, mapLookup, ruPricing, tablePrice, quantityApprox, memoryGiB,
      PlatformIntelIceLake, PlatformAMDZen3, PlatformAmdZen4ComputeOptimized,
      PlatformIntelBroadwell, PlatformIntelCascadeLake, CoreFraction20, CoreFraction50,
      CoreFraction100]
    norm_num
  exact ⟨hod, hsp,
    c4_spot_price_strictly_below_on_demand _ _ _ (by norm_num) (by norm_num) hod hsp⟩

/-! ## Claim C6: core-fraction gate of the network-acceleration check -/

/-- Counterexample to claim C6: with network acceleration enabled and core
fractions 50 and 100 configured, `validateSAN` succeeds even though not
every configured tier equals 100, contradicting the claim that the check
succeeds exactly when every configured tier is 100 or none are
configured. -/
theorem c6_counterexample :
    (validateSAN ⟨"network-ssd", ⟨1, .binarySI⟩, true, ["50", "100"]⟩).1 = "" ∧
      ¬((["50", "100"] : List String) = [] ∨
        ∀ cf ∈ (["50", "100"] : List String), cf = "100") := by
  decide

/-- Claim C6 (amended): with the network-acceleration feature enabled, the
check succeeds exactly when no core-fraction tiers are configured or at
least one configured tier equals 100; in every other case it fails with
the dedicated stable reason code `InvalidSANCoreFractions`. -/
theorem c6_validate_san_amended :
    ∀ spec : NodeClassValidationSpec,
      spec.softwareAcceleratedNetworkSettings = true →
      ((validateSAN spec).1 = "" ↔
        (spec.coreFractions = [] ∨ ∃ cf ∈ spec.coreFractions, cf = "100")) ∧
      ((validateSAN spec).1 ≠ "" → (validateSAN spec).1 = "InvalidSANCoreFractions") := by
  intro spec hsan
  by_cases h1 : spec.coreFractions = []
  · constructor
    · simp [validateSAN, hsan, h1]
    · simp [validateSAN, hsan, h1]
  · by_cases h2 : spec.coreFractions.any (fun cf => cf = "100") = true
    · have hval : (validateSAN spec).1 = "" := by
        simp [validateSAN, hsan, h1, h2]
      have hex : ∃ cf ∈ spec.coreFractions, cf = "100" := by
        simpa [List.any_eq_true, decide_eq_true_eq] using h2
      constructor
      · rw [hval]
        exact ⟨fun _ => Or.inr hex, fun _ => rfl⟩
      · rw [hval]
        intro h
        exact absurd rfl h
    · have hval1 : (validateSAN spec).1 = "InvalidSANCoreFractions" := by
        simp [validateSAN, hsan, h1, h2]
      have hnex : ¬∃ cf ∈ spec.coreFractions, cf = "100" := by
        intro hex
        apply h2
        simpa [List.any_eq_true, decide_eq_true_eq] using hex
      constructor
      · rw [hval1]
        constructor
        · intro h
          simp at h
        · intro h
          rcases h with h | hex
          · exact absurd h h1
          · exact absurd hex hnex
      · intro _
        exact hval1

/-- Witness for C6 (amended) at a spec with fractions `[50, 100]`. -/
theorem c6_validate_san_amended_witness :
    (((validateSAN ⟨"network-ssd", ⟨1, .binarySI⟩, true, ["50", "100"]⟩).1 = "") ↔
      ((["50", "100"] : List String) = [] ∨
        ∃ cf ∈ (["50", "100"] : List String), cf = "100")) ∧
    ((validateSAN ⟨"network-ssd", ⟨1, .binarySI⟩, true, ["50", "100"]⟩).1 ≠ "" →
      (validateSAN ⟨"network-ssd", ⟨1, .binarySI⟩, true, ["50", "100"]⟩).1 =
        "InvalidSANCoreFractions") :=
  c6_validate_san_amended _ rfl

/-! ## Claim C7: disk size and type validation -/

theorem validateDisk_nonpositive {spec : NodeClassValidationSpec}
    (h : spec.diskSize.value ≤ 0) : (validateDisk spec).1 = "InvalidDiskSize" := by
  simp [validateDisk, if_pos h]

theorem validateDisk_unsupported {spec : NodeClassValidationSpec}
    (h0 : 0 < spec.diskSize.value) (hr : rulesForDiskType spec.diskType = none) :
    (validateDisk spec).1 = "InvalidDiskType" := by
  simp only [validateDisk, hr]
  rw [if_neg (by omega)]

theorem validateDisk_accept_step {spec : NodeClassValidationSpec} {r : DiskRules}
    (hr : rulesForDiskType spec.diskType = some r)
    (hsize : spec.diskSize.value = r.stepBytes)
    (h1 : 0 < r.stepBytes) (h2 : r.minBytes ≤ r.stepBytes) (h3 : r.stepBytes ≤ r.maxBytes) :
    validateDisk spec = ("", "") := by
  simp only [validateDisk, hr]
  rw [if_neg (by omega)]
  rw [if_neg (show ¬(r.minBytes > 0 ∧ spec.diskSize.value < r.minBytes) by omega)]
  rw [if_neg (show ¬(r.stepBytes > 0 ∧ spec.diskSize.value % r.stepBytes ≠ 0) by
    rw [hsize]
    simp [Int.emod_self])]
  rw [if_neg (show ¬(r.maxBytes > 0 ∧ spec.diskSize.value > r.maxBytes) by omega)]

theorem validateDisk_below_min {spec : NodeClassValidationSpec} {r : DiskRules}
    (hr : rulesForDiskType spec.diskType = some r) (hminpos : 0 < r.minBytes)
    (h0 : 0 < spec.diskSize.value) (hlt : spec.diskSize.value < r.minBytes) :
    (validateDisk spec).1 = "InvalidDiskSize" := by
  simp only [validateDisk, hr]
  rw [if_neg (by omega)]
  rw [if_pos (show r.minBytes > 0 ∧ spec.diskSize.value < r.minBytes from ⟨hminpos, hlt⟩)]

theorem validateDisk_step_minus_one {spec : NodeClassValidationSpec} {r : DiskRules}
    (hr : rulesForDiskType spec.diskType = some r) (hstep : 1 < r.stepBytes)
    {k : Int} (hk : 1 ≤ k) (hsize : spec.diskSize.value = k * r.stepBytes - 1) :
    (validateDisk spec).1 = "InvalidDiskSize" := by
  have hemod : spec.diskSize.value % r.stepBytes = r.stepBytes - 1 := by
    have ha : (-1 + r.stepBytes * 1) % r.stepBytes = (-1 : Int) % r.stepBytes :=
      Int.add_mul_emod_self_left (-1) r.stepBytes 1
    have hb : (-1 + r.stepBytes * 1 : Int) = r.stepBytes - 1 := by ring
    have hc : (r.stepBytes - 1) % r.stepBytes = r.stepBytes - 1 :=
      Int.emod_eq_of_lt (by omega) (by omega)
    have hone : (1 : Int) % r.stepBytes = 1 := Int.emod_eq_of_lt (by omega) (by omega)
    rw [hsize, Int.sub_emod, Int.mul_emod_left, hone]
    rw [show ((0 : Int) - 1) = -1 by norm_num]
    rw [← ha, hb, hc]
  simp only [validateDisk, hr]
  by_cases hle : spec.diskSize.value ≤ 0
  · rw [if_pos hle]
  · rw [if_neg hle]
    by_cases hmin : r.minBytes > 0 ∧ spec.diskSize.value < r.minBytes
    · rw [if_pos hmin]
    · rw [if_neg hmin]
      rw [if_pos (show r.stepBytes > 0 ∧ spec.diskSize.value % r.stepBytes ≠ 0 by omega)]

theorem validateDisk_above_max {spec : NodeClassValidationSpec} {r : DiskRules}
    (hr : rulesForDiskType spec.diskType = some r) (hmax : 0 < r.maxBytes)
    (hgt : r.maxBytes < spec.diskSize.value) :
    (validateDisk spec).1 = "InvalidDiskSize" := by
  simp only [validateDisk, hr]
  by_cases hle : spec.diskSize.value ≤ 0
  · rw [if_pos hle]
  · rw [if_neg hle]
    by_cases hmin : r.minBytes > 0 ∧ spec.diskSize.value < r.minBytes
    · rw [if_pos hmin]
    · rw [if_neg hmin]
      by_cases hmul : r.stepBytes > 0 ∧ spec.diskSize.value % r.stepBytes ≠ 0
      · rw [if_pos hmul]
      · rw [if_neg hmul]
        rw [if_pos (show r.maxBytes > 0 ∧ spec.diskSize.value > r.maxBytes from ⟨hmax, hgt⟩)]

/-- Claim C7: disk validation rejects non-positive sizes with
`InvalidDiskSize`; for every supported disk type it accepts a size of
exactly `stepBytes` (the step is at least the minimum for every supported
type), rejects any size one byte short of a multiple of `stepBytes`, and
rejects sizes below `minBytes` or above `maxBytes`, all with
`InvalidDiskSize`; unsupported disk types are rejected with the distinct
reason `InvalidDiskType`. -/
theorem c7_validate_disk :
    (∀ spec : NodeClassValidationSpec, spec.diskSize.value ≤ 0 →
        (validateDisk spec).1 = "InvalidDiskSize") ∧
    (∀ t ∈ supportedDiskTypes, ∀ r, rulesForDiskType t = some r →
      r.minBytes ≤ r.stepBytes ∧
      (∀ spec : NodeClassValidationSpec, spec.diskType = t →
        spec.diskSize.value = r.stepBytes → validateDisk spec = ("", "")) ∧
      (∀ spec : NodeClassValidationSpec, spec.diskType = t → ∀ k : Int, 1 ≤ k →
        spec.diskSize.value = k * r.stepBytes - 1 →
        (validateDisk spec).1 = "InvalidDiskSize") ∧
      (∀ spec : NodeClassValidationSpec, spec.diskType = t →
        0 < spec.diskSize.value → spec.diskSize.value < r.minBytes →
        (validateDisk spec).1 = "InvalidDiskSize") ∧
      (∀ spec : NodeClassValidationSpec, spec.diskType = t →
        r.maxBytes < spec.diskSize.value →
        (validateDisk spec).1 = "InvalidDiskSize")) ∧
    (∀ spec : NodeClassValidationSpec, rulesForDiskType spec.diskType = none →
        0 < spec.diskSize.value → (validateDisk spec).1 = "InvalidDiskType") := by
  refine ⟨fun spec h => validateDisk_nonpositive h, ?_,
    fun spec hr h0 => validateDisk_unsupported h0 hr⟩
  intro t ht r hr
  have ht4 : t = "network-ssd" ∨ t = "network-hdd" ∨ t = "network-ssd-nonreplicated" ∨
      t = "network-ssd-io-m3" := by simpa [supportedDiskTypes] using ht
  obtain ⟨hminpos, hsteppos, hstep1, hmaxpos, hminle, hstepmax⟩ :
      0 < r.minBytes ∧ 0 < r.stepBytes ∧ 1 < r.stepBytes ∧ 0 < r.maxBytes ∧
        r.minBytes ≤ r.stepBytes ∧ r.stepBytes ≤ r.maxBytes := by
    rcases ht4 with rfl | rfl | rfl | rfl
    · rw [show rulesForDiskType "network-ssd" =
          some ⟨stepNetworkDiskBytes, stepNetworkDiskBytes, maxDefaultBytes⟩ from rfl] at hr
      obtain rfl := Option.some.inj hr
      exact ⟨by decide, by decide, by decide, by decide, by decide, by decide⟩
    · rw [show rulesForDiskType "network-hdd" =
          some ⟨stepNetworkDiskBytes, stepNetworkDiskBytes, maxDefaultBytes⟩ from rfl] at hr
      obtain rfl := Option.some.inj hr
      exact ⟨by decide, by decide, by decide, by decide, by decide, by decide⟩
    · rw [show rulesForDiskType "network-ssd-nonreplicated" =
          some ⟨stepNonReplicated, stepNonReplicated, 256 * TB⟩ from rfl] at hr
      obtain rfl := Option.some.inj hr
      exact ⟨by decide, by decide, by decide, by decide, by decide, by decide⟩
    · rw [show rulesForDiskType "network-ssd-io-m3" =
          some ⟨stepNonReplicated, stepNonReplicated, 256 * TB⟩ from rfl] at hr
      obtain rfl := Option.some.inj hr
      exact ⟨by decide, by decide, by decide, by decide, by decide, by decide⟩
  refine ⟨hminle, ?_, ?_, ?_, ?_⟩
  · intro spec hty hsize
    exact validateDisk_accept_step (hty ▸ hr) hsize hsteppos hminle hstepmax
  · intro spec hty k hk hsize
    exact validateDisk_step_minus_one (hty ▸ hr) hstep1 hk hsize
  · intro spec hty h0 hlt
    exact validateDisk_below_min (hty ▸ hr) hminpos h0 hlt
  · intro spec hty hgt
    exact validateDisk_above_max (hty ▸ hr) hmaxpos hgt

/-- Witness for C7: size 0 is rejected, a 4Mi `network-ssd` disk (exactly
one step) is accepted, and `4Mi - 1` bytes are rejected. -/
theorem c7_validate_disk_witness :
    (validateDisk ⟨"network-ssd", ⟨0, .binarySI⟩, false, []⟩).1 = "InvalidDiskSize" ∧
    validateDisk ⟨"network-ssd", ⟨4194304, .binarySI⟩, false, []⟩ = ("", "") ∧
    (validateDisk ⟨"network-ssd", ⟨4194303, .binarySI⟩, false, []⟩).1 = "InvalidDiskSize" := by
  refine ⟨c7_validate_disk.1 _ (by decide), ?_, ?_⟩
  · exact (c7_validate_disk.2.1 "network-ssd" (by decide) _ rfl).2.1 _ rfl (by decide)
  · exact (c7_validate_disk.2.1 "network-ssd" (by decide) _ rfl).2.2.1 _ rfl 1 (by decide)
      (by decide)

/-! ## Claim C5: behaviour on an unrecognized capacity type -/

/-- Counterexample to claim C5: `createOfferings` panics (it does not and
cannot return an error value — its signature has no error result) when a
requirement carries the capacity type `reserved`. -/
theorem c5_counterexample :
    createOfferings
      ⟨"standard-v3_2_4Gi_100",
        [(capacityTypeLabelKey, ["reserved"]), (labelTopologyZone, ["ru-central1-a"])],
        [], [], []⟩
      ["ru-central1-a"] =
      .panic ("invalid capacity type \"reserved\" in requirements for instance type " ++
        "\"standard-v3_2_4Gi_100\"") := by
  decide

theorem offeringsForCapacityTypes_panics (itName : InstanceType) (name : String)
    (itZones : List String) (zone : String) :
    ∀ (cts : List String) (ct : String), ct ∈ cts →
      ct ≠ capacityTypeOnDemand → ct ≠ capacityTypeSpot →
      ∃ msg, offeringsForCapacityTypes itName name itZones zone cts = .panic msg := by
  intro cts
  induction cts with
  | nil => intro ct h; cases h
  | cons head rest ih =>
    intro ct hmem hod hsp
    by_cases h1 : head = capacityTypeOnDemand
    · have hct : ct ∈ rest := by
        rcases List.mem_cons.mp hmem with rfl | h
        · exact absurd h1 hod
        · exact h
      obtain ⟨msg, hm⟩ := ih ct hct hod hsp
      refine ⟨msg, ?_⟩
      simp only [offeringsForCapacityTypes]
      rw [if_pos h1, hm]
    · by_cases h2 : head = capacityTypeSpot
      · have hct : ct ∈ rest := by
          rcases List.mem_cons.mp hmem with rfl | h
          · exact absurd h2 hsp
          · exact h
        obtain ⟨msg, hm⟩ := ih ct hct hod hsp
        refine ⟨msg, ?_⟩
        simp only [offeringsForCapacityTypes]
        rw [if_neg h1, if_pos h2, hm]
      · refine ⟨"invalid capacity type \"" ++ head ++ "\" in requirements for instance type \""
          ++ name ++ "\"", ?_⟩
        simp only [offeringsForCapacityTypes]
        rw [if_neg h1, if_neg h2]

/-- Claim C5 (amended): for every caller-supplied capacity type that is
neither on-demand nor spot appearing in an instance type's requirements,
`createOfferings` panics with a message naming the invalid capacity type —
it fails fast instead of returning an error result (its signature has no
error result to return). -/
theorem c5_unknown_capacity_type_panics :
    ∀ (it : KInstanceType) (zones : List String) (ct : String),
      zones ≠ [] →
      ct ∈ reqsGet it.requirements capacityTypeLabelKey →
      ct ≠ capacityTypeOnDemand → ct ≠ capacityTypeSpot →
      ∃ msg, createOfferings it zones = .panic msg := by
  intro it zones ct hz hmem hod hsp
  cases zones with
  | nil => exact absurd rfl hz
  | cons z zs =>
    obtain ⟨msg, hm⟩ :=
      offeringsForCapacityTypes_panics (fromStringMut it.name) it.name
        (reqsGet it.requirements labelTopologyZone) z _ ct hmem hod hsp
    refine ⟨msg, ?_⟩
    simp only [createOfferings, createOfferingsAux]
    rw [hm]

/-- Witness for C5 (amended) at a concrete instance type requesting the
capacity type `reserved`. -/
theorem c5_unknown_capacity_type_panics_witness :
    ∃ msg,
      createOfferings
        ⟨"x", [(capacityTypeLabelKey, ["reserved"])], [], [], []⟩ ["z1"] =
        .panic msg :=
  c5_unknown_capacity_type_panics
    ⟨"x", [(capacityTypeLabelKey, ["reserved"])], [], [], []⟩ ["z1"] "reserved"
    (by decide) (by decide) (by decide) (by decide)

/-! ## Claim C3: no discounted offerings for discount-ineligible platforms -/

theorem offeringCapacityType_mk (ct zone : String) (price : ℚ) (avail : Bool) :
    offeringCapacityType
      ⟨[(capacityTypeLabelKey, [ct]), (labelTopologyZone, [zone])], price, avail⟩ = ct := by
  simp [offeringCapacityType, reqsGet, mapLookup]

theorem offeringsForCapacityTypes_spec (itName : InstanceType) (name : String)
    (itZones : List String) (zone : String) :
    ∀ cts : List String,
      (∀ ct ∈ cts, ct = capacityTypeOnDemand ∨ ct = capacityTypeSpot) →
      ∃ offs, offeringsForCapacityTypes itName name itZones zone cts = .ok offs ∧
        (∀ o ∈ offs, offeringCapacityType o ∈ cts) ∧
        (∀ ct ∈ cts, ∃ o ∈ offs, offeringCapacityType o = ct) := by
  intro cts
  induction cts with
  | nil => exact fun _ => ⟨[], rfl, by simp, by simp⟩
  | cons head rest ih =>
    intro h
    obtain ⟨offs, hok, hall, hexist⟩ := ih (fun ct hct => h ct (List.mem_cons_of_mem _ hct))
    rcases h head (List.mem_cons_self _ _) with h1 | h1
    · refine ⟨{ requirements := [(capacityTypeLabelKey, [head]), (labelTopologyZone, [zone])]
                price := (onDemandPrice itName).getD 0
                available := (onDemandPrice itName).isSome && decide (zone ∈ itZones) } :: offs,
        ?_, ?_, ?_⟩
      · simp only [offeringsForCapacityTypes]
        rw [if_pos h1, hok]
      · intro o ho
        rcases List.mem_cons.mp ho with rfl | ho
        · rw [offeringCapacityType_mk]
          exact List.mem_cons_self _ _
        · exact List.mem_cons_of_mem _ (hall o ho)
      · intro ct hct
        rcases List.mem_cons.mp hct with rfl | hct
        · exact ⟨_, List.mem_cons_self _ _, offeringCapacityType_mk ..⟩
        · obtain ⟨o, ho, hcap⟩ := hexist ct hct
          exact ⟨o, List.mem_cons_of_mem _ ho, hcap⟩
    · refine ⟨{ requirements := [(capacityTypeLabelKey, [head]), (labelTopologyZone, [zone])]
                price := (spotPrice itName).getD 0
                available := (spotPrice itName).isSome && decide (zone ∈ itZones) } :: offs,
        ?_, ?_, ?_⟩
      · simp only [offeringsForCapacityTypes]
        by_cases h0 : head = capacityTypeOnDemand
        · rw [if_pos h0, hok]
          rw [h1] at h0
          exact absurd h0.symm (by decide)
        · rw [if_neg h0, if_pos h1, hok]
      · intro o ho
        rcases List.mem_cons.mp ho with rfl | ho
        · rw [offeringCapacityType_mk]
          exact List.mem_cons_self _ _
        · exact List.mem_cons_of_mem _ (hall o ho)
      · intro ct hct
        rcases List.mem_cons.mp hct with rfl | hct
        · exact ⟨_, List.mem_cons_self _ _, offeringCapacityType_mk ..⟩
        · obtain ⟨o, ho, hcap⟩ := hexist ct hct
          exact ⟨o, List.mem_cons_of_mem _ ho, hcap⟩

theorem createOfferingsAux_spec (itName : InstanceType) (name : String)
    (itZones : List String) (capTypes : List String)
    (h : ∀ ct ∈ capTypes, ct = capacityTypeOnDemand ∨ ct = capacityTypeSpot) :
    ∀ zones : List String,
      ∃ offs, createOfferingsAux itName name itZones capTypes zones = .ok offs ∧
        (∀ o ∈ offs, offeringCapacityType o ∈ capTypes) ∧
        (zones ≠ [] → ∀ ct ∈ capTypes, ∃ o ∈ offs, offeringCapacityType o = ct) := by
  intro zones
  induction zones with
  | nil => exact ⟨[], rfl, by simp, fun hz => absurd rfl hz⟩
  | cons z zs ih =>
    obtain ⟨zOffs, hzok, hzall, hzexist⟩ :=
      offeringsForCapacityTypes_spec itName name itZones z capTypes h
    obtain ⟨offs, hok, hall, _⟩ := ih
    refine ⟨zOffs ++ offs, ?_, ?_, ?_⟩
    · simp only [createOfferingsAux]
      rw [hzok, hok]
    · intro o ho
      rcases List.mem_append.mp ho with ho | ho
      · exact hzall o ho
      · exact hall o ho
    · intro _ ct hct
      obtain ⟨o, ho, hcap⟩ := hzexist ct hct
      exact ⟨o, List.mem_append_left _ ho, hcap⟩

theorem createOfferings_spec (it : KInstanceType) (allZones : List String)
    (h : ∀ ct ∈ reqsGet it.requirements capacityTypeLabelKey,
      ct = capacityTypeOnDemand ∨ ct = capacityTypeSpot) :
    ∃ offs, createOfferings it allZones = .ok offs ∧
      (∀ o ∈ offs, offeringCapacityType o ∈ reqsGet it.requirements capacityTypeLabelKey) ∧
      (allZones ≠ [] → ∀ ct ∈ reqsGet it.requirements capacityTypeLabelKey,
        ∃ o ∈ offs, offeringCapacityType o = ct) := by
  simpa only [createOfferings] using
    createOfferingsAux_spec (fromStringMut it.name) it.name
      (reqsGet it.requirements labelTopologyZone)
      (reqsGet it.requirements capacityTypeLabelKey) h allZones

theorem computeRequirements_capacity (info : InstanceType) (zones : List String)
    (flag : Bool) :
    reqsGet (computeRequirements info zones flag) capacityTypeLabelKey =
      if flag then [capacityTypeOnDemand, capacityTypeSpot] else [capacityTypeOnDemand] := by
  cases flag <;> rfl

theorem injectOfferings_capacity_const (allZones : List String) (ctList : List String)
    (hgood : ∀ ct ∈ ctList, ct = capacityTypeOnDemand ∨ ct = capacityTypeSpot) :
    ∀ its : List KInstanceType,
      (∀ it ∈ its, reqsGet it.requirements capacityTypeLabelKey = ctList) →
      ∃ out, injectOfferings allZones its = .ok out ∧ out.length = its.length ∧
        ∀ outIt ∈ out,
          (∀ o ∈ outIt.offerings, offeringCapacityType o ∈ ctList) ∧
          (allZones ≠ [] → ∀ ct ∈ ctList, ∃ o ∈ outIt.offerings, offeringCapacityType o = ct) := by
  intro its
  induction its with
  | nil => exact fun _ => ⟨[], rfl, rfl, by simp⟩
  | cons it rest ih =>
    intro h
    have hit := h it (List.mem_cons_self _ _)
    obtain ⟨offs, hok, hall, hexist⟩ :=
      createOfferings_spec it allZones (by rw [hit]; exact hgood)
    obtain ⟨out, hiok, hlen, hprops⟩ := ih (fun x hx => h x (List.mem_cons_of_mem _ hx))
    refine ⟨{ it with offerings := offs } :: out, ?_, by simp [hlen], ?_⟩
    · simp only [injectOfferings]
      rw [hok, hiok]
    · intro outIt hmem
      rcases List.mem_cons.mp hmem with rfl | hmem
      · refine ⟨fun o ho => ?_, fun hz ct hct => ?_⟩
        · exact hit ▸ hall o ho
        · obtain ⟨o, ho, hcap⟩ := hexist hz ct (hit ▸ hct)
          exact ⟨o, ho, hcap⟩
      · exact hprops outIt hmem

/-- Claim C3: for every platform configuration row with
`CanBePreemptible = false`, the offering generation pipeline
(`generateTypesFor` = generate × resolve × inject) produces, for every
zone set, no offering whose capacity type is spot, and, whenever the zone
set is nonempty, at least one on-demand offering per generated instance
type.  The capacity-type requirement of the resolver is modelled from the
spec (see `computeRequirements`). -/
theorem c3_no_spot_offerings_for_nonpreemptible_platform :
    ∀ (platform : PlatformId) (cfgList : List InstanceConfiguration),
      (platform, cfgList) ∈ ruAvailableConfigurations →
      ∀ cfg ∈ cfgList, cfg.canBePreemptible = false →
      ∀ (availableZones allZones : List String) (diskSize : Quantity) (maxPods : Int),
        ∃ its, generateTypesFor platform cfg availableZones diskSize maxPods allZones = .ok its ∧
          its.length = (generateInstanceTypes platform cfg).length ∧
          (∀ it ∈ its, ∀ o ∈ it.offerings, offeringCapacityType o ≠ capacityTypeSpot) ∧
          (allZones ≠ [] → ∀ it ∈ its,
            ∃ o ∈ it.offerings, offeringCapacityType o = capacityTypeOnDemand) := by
  intro platform cfgList _ cfg _ hflag availableZones allZones diskSize maxPods
  obtain ⟨out, hok, hlen, hprops⟩ :=
    injectOfferings_capacity_const allZones [capacityTypeOnDemand] (by simp)
      ((generateInstanceTypes platform cfg).map fun t =>
        resolveInstanceType t availableZones cfg.canBePreemptible diskSize maxPods)
      (by
        intro it hit
        obtain ⟨t, _, rfl⟩ := List.mem_map.mp hit
        rw [resolveInstanceType, computeRequirements_capacity, hflag]
        rfl)
  refine ⟨out, hok, by simpa using hlen, ?_, ?_⟩
  · intro it hit o ho
    have := (hprops it hit).1 o ho
    simp only [List.mem_singleton] at this
    rw [this]
    decide
  · intro hz it hit
    exact (hprops it hit).2 hz capacityTypeOnDemand (List.mem_singleton_self _)

/-- Witness for C3: the `highfreq-v3` platform row
(`CanBePreemptible = false`) with one zone. -/
theorem c3_no_spot_offerings_for_nonpreemptible_platform_witness :
    ∃ its,
      generateTypesFor PlatformIntelIceLakeComputeOptimized
          (cfgsIntelIceLakeComputeOptimized.headD ⟨0, [], [], true⟩)
          ["ru-central1-a"] ⟨32212254720, .binarySI⟩ 10 ["ru-central1-a"] = .ok its ∧
        its.length = (generateInstanceTypes PlatformIntelIceLakeComputeOptimized
          (cfgsIntelIceLakeComputeOptimized.headD ⟨0, [], [], true⟩)).length ∧
        (∀ it ∈ its, ∀ o ∈ it.offerings, offeringCapacityType o ≠ capacityTypeSpot) ∧
        ((["ru-central1-a"] : List String) ≠ [] → ∀ it ∈ its,
          ∃ o ∈ it.offerings, offeringCapacityType o = capacityTypeOnDemand) :=
  c3_no_spot_offerings_for_nonpreemptible_platform
    PlatformIntelIceLakeComputeOptimized cfgsIntelIceLakeComputeOptimized
    (by decide) _ (by decide) (by decide) ["ru-central1-a"] ["ru-central1-a"]
    ⟨32212254720, .binarySI⟩ 10

/-! ## Claim C2: the selection step of Create on an empty candidate set -/

/-- Counterexample to claim C2: a request whose node-pool requirement
(`pool-a`) differs from the claim's node-pool label (`pool-b`).  The
initial filter keeps the only instance type (its offering is compatible
and available), but the in-`Create` label-augmented filter empties the
candidate list — and the selection step then panics (indexing the first
element of the empty list) instead of returning the explicit
insufficient-capacity error the claim requires. -/
theorem c2_counterexample :
    resolveInstanceTypesFn
        [⟨"t1", [(capacityTypeLabelKey, ["on-demand"]), (labelTopologyZone, ["z1"])],
          [⟨[(capacityTypeLabelKey, ["on-demand"]), (labelTopologyZone, ["z1"])], 0, true⟩],
          [], []⟩]
        [(nodePoolLabelKey, ["pool-a"])] [] ≠ [] ∧
      createSecondFilter
        (resolveInstanceTypesFn
          [⟨"t1", [(capacityTypeLabelKey, ["on-demand"]), (labelTopologyZone, ["z1"])],
            [⟨[(capacityTypeLabelKey, ["on-demand"]), (labelTopologyZone, ["z1"])], 0, true⟩],
            [], []⟩]
          [(nodePoolLabelKey, ["pool-a"])] [])
        [(nodePoolLabelKey, ["pool-a"])] "pool-b" "nc" = [] ∧
      createSelect
        [⟨"t1", [(capacityTypeLabelKey, ["on-demand"]), (labelTopologyZone, ["z1"])],
          [⟨[(capacityTypeLabelKey, ["on-demand"]), (labelTopologyZone, ["z1"])], 0, true⟩],
          [], []⟩]
        [(nodePoolLabelKey, ["pool-a"])] [] "pool-b" "nc" 0 = .panicked := by
  refine ⟨?_, ?_, ?_⟩ <;> decide

/-- Claim C2 (amended): when the initial filter of
`resolveInstanceTypes` (at least one compatible available offering,
resources fit) leaves no candidate, the selection step of `Create`
returns the explicit insufficient-capacity error and does not panic; but
when that filter leaves candidates and the subsequent label-augmented
compatibility filter inside `Create` empties the list, the selection step
panics (it indexes the first element of the empty filtered list) instead
of returning an error. -/
theorem c2_create_selection_amended :
    ∀ (its : List KInstanceType) (reqs : Requirements) (requests : List (String × Int))
      (poolVal classVal : String) (pick : Nat),
      (resolveInstanceTypesFn its reqs requests = [] →
        createSelect its reqs requests poolVal classVal pick = .insufficientCapacity) ∧
      (resolveInstanceTypesFn its reqs requests ≠ [] →
        createSecondFilter (resolveInstanceTypesFn its reqs requests) reqs poolVal classVal
          = [] →
        createSelect its reqs requests poolVal classVal pick = .panicked) := by
  intro its reqs requests poolVal classVal pick
  constructor
  · intro h
    simp only [createSelect, h]
    rfl
  · intro h1 h2
    simp only [createSelect]
    rw [if_neg (by simpa [List.isEmpty_iff] using h1)]
    rw [h2]

/-- Witness for C2 (amended): with no instance types at all the initial
filter is empty and the selection step returns the insufficient-capacity
error. -/
theorem c2_create_selection_amended_witness :
    createSelect [] [(nodePoolLabelKey, ["pool-a"])] [] "pool-a" "nc" 0 =
      .insufficientCapacity :=
  (c2_create_selection_amended [] [(nodePoolLabelKey, ["pool-a"])] [] "pool-a" "nc" 0).1
    (by decide)

/-! ## Claim C8: idempotent node-group creation -/

theorem mapLookup_eq_none_forall {α β : Type} [DecidableEq α] {k : α} :
    ∀ {m : List (α × β)}, mapLookup k m = none → ∀ kv ∈ m, kv.1 ≠ k := by
  intro m
  induction m with
  | nil => intro _ kv h; cases h
  | cons head rest ih =>
    intro h kv hmem
    rw [mapLookup_cons] at h
    by_cases hk : k = head.1
    · rw [if_pos hk] at h
      cases h
    · rw [if_neg hk] at h
      rcases List.mem_cons.mp hmem with rfl | hmem
      · exact fun he => hk he.symm
      · exact ih h kv hmem

theorem mapLookup_map_update {α β : Type} [DecidableEq α] (k : α) (v : β) :
    ∀ l : List (α × β), (mapLookup k l).isSome = true →
      mapLookup k (l.map fun kv => if kv.1 = k then (k, v) else kv) = some v := by
  intro l
  induction l with
  | nil =>
    intro h
    rw [mapLookup_nil] at h
    simp at h
  | cons head rest ih =>
    intro h
    rw [List.map_cons]
    by_cases hk : head.1 = k
    · rw [if_pos hk, mapLookup_cons, if_pos rfl]
    · rw [if_neg hk, mapLookup_cons, if_neg (fun he => hk he.symm)]
      apply ih
      rw [mapLookup_cons, if_neg (fun he => hk he.symm)] at h
      exact h

theorem mapLookup_map_update_other {α β : Type} [DecidableEq α] {k k' : α} (v : β)
    (h : k ≠ k') :
    ∀ l : List (α × β),
      mapLookup k (l.map fun kv => if kv.1 = k' then (k', v) else kv) = mapLookup k l := by
  intro l
  induction l with
  | nil => rfl
  | cons head rest ih =>
    rw [List.map_cons]
    by_cases hk' : head.1 = k'
    · rw [if_pos hk', mapLookup_cons, mapLookup_cons]
      rw [if_neg (show ¬k = ((k', v) : α × β).1 from h)]
      rw [if_neg (show ¬k = head.1 from fun he => h (he.trans hk'))]
      exact ih
    · rw [if_neg hk', mapLookup_cons, mapLookup_cons]
      by_cases hk : k = head.1
      · rw [if_pos hk, if_pos hk]
      · rw [if_neg hk, if_neg hk]
        exact ih

theorem setLabel_lookup_self (labels : List (String × String)) (k v : String) :
    mapLookup k (setLabel labels k v) = some v := by
  rw [setLabel]
  by_cases h : (mapLookup k labels).isSome
  · rw [if_pos h]
    exact mapLookup_map_update k v labels h
  · rw [if_neg h, mapLookup_append]
    have hl : mapLookup k labels = none := by
      cases hx : mapLookup k labels with
      | none => rfl
      | some w =>
        rw [hx] at h
        simp at h
    rw [hl, mapLookup_cons, if_pos rfl]

theorem setLabel_lookup_other (labels : List (String × String)) {k k' : String}
    (v : String) (h : k ≠ k') :
    mapLookup k (setLabel labels k' v) = mapLookup k labels := by
  rw [setLabel]
  by_cases hs : (mapLookup k' labels).isSome
  · rw [if_pos hs]
    exact mapLookup_map_update_other v h labels
  · rw [if_neg hs, mapLookup_append]
    cases hl : mapLookup k labels with
    | some w => rfl
    | none => rw [mapLookup_cons, if_neg h, mapLookup_nil]

theorem nodeLabels_preserve_marker (nodeLabels : List (String × String))
    (hnone : mapLookup "managed-by" nodeLabels = none) :
    ∀ init : List (String × String),
      mapLookup "managed-by"
        (nodeLabels.foldl (fun acc kv => setLabel acc kv.1 (goToLower kv.2)) init) =
      mapLookup "managed-by" init := by
  induction nodeLabels with
  | nil => intro init; rfl
  | cons head rest ih =>
    intro init
    have hne : head.1 ≠ "managed-by" :=
      mapLookup_eq_none_forall hnone head (List.mem_cons_self _ _)
    have hrest : mapLookup "managed-by" rest = none := by
      rw [mapLookup, if_neg (fun he => hne he.symm)] at hnone
      exact hnone
    rw [List.foldl_cons, ih hrest]
    exact setLabel_lookup_other init _ (fun he => hne he.symm)

/-- Counterexample to claim C8: when the caller's node labels override the
`managed-by` marker, the created group is not listed as managed, so a
second create with the same name issues a second provider Create call and
returns a different identifier, leaving two groups with the same name. -/
theorem c8_counterexample :
    ((createFixedNodeGroup
        ((createFixedNodeGroup ⟨"c", "f", [], []⟩ "id1" "web" [] [("managed-by", "X")]).2.1)
        "id2" "web" [] [("managed-by", "X")]).2.2 = true) ∧
      ((createFixedNodeGroup
          ((createFixedNodeGroup ⟨"c", "f", [], []⟩ "id1" "web" [] [("managed-by", "X")]).2.1)
          "id2" "web" [] [("managed-by", "X")]).1 ≠
        (createFixedNodeGroup ⟨"c", "f", [], []⟩ "id1" "web" [] [("managed-by", "X")]).1) ∧
      (((createFixedNodeGroup
          ((createFixedNodeGroup ⟨"c", "f", [], []⟩ "id1" "web" [] [("managed-by", "X")]).2.1)
          "id2" "web" [] [("managed-by", "X")]).2.1.nodeGroups.filter
          (fun ng => ng.name = "web")).length = 2) := by
  refine ⟨?_, ?_, ?_⟩ <;> decide

/-- Claim C8 (amended): when a node group with the requested name already
exists among the managed node groups, create returns its identifier
without issuing a provider Create call and leaves the state unchanged;
and, provided the caller's node labels do not override the `managed-by`
marker, a second create with the same name is a no-op returning the first
call's identifier.  (The source overlays the caller's node labels after
stamping `managed-by: karpenter`, so a node label with that key defeats
the guard — see the counterexample.) -/
theorem c8_create_idempotent_amended :
    ∀ (st : YCState) (freshId name : String) (labels nodeLabels : List (String × String)),
      (∀ ng, (listNodeGroups st).find? (fun g => g.name = name) = some ng →
        createFixedNodeGroup st freshId name labels nodeLabels = (ng.id, st, false)) ∧
      (mapLookup "managed-by" nodeLabels = none →
        ∀ freshId2,
          createFixedNodeGroup
              (createFixedNodeGroup st freshId name labels nodeLabels).2.1
              freshId2 name labels nodeLabels =
            ((createFixedNodeGroup st freshId name labels nodeLabels).1,
              (createFixedNodeGroup st freshId name labels nodeLabels).2.1, false)) := by
  intro st freshId name labels nodeLabels
  constructor
  · intro ng h
    rw [createFixedNodeGroup, h]
  · intro hnone freshId2
    cases hfind : (listNodeGroups st).find? (fun g => g.name = name) with
    | some ng =>
      have hinner : createFixedNodeGroup st freshId name labels nodeLabels =
          (ng.id, st, false) := by
        rw [createFixedNodeGroup, hfind]
      rw [hinner]
      show createFixedNodeGroup st freshId2 name labels nodeLabels = (ng.id, st, false)
      rw [createFixedNodeGroup, hfind]
    | none =>
      have hinner : createFixedNodeGroup st freshId name labels nodeLabels =
          (freshId,
            { st with nodeGroups := st.nodeGroups ++
                [⟨freshId, name, st.clusterId, st.clusterFolderId,
                  nodeLabels.foldl (fun acc kv => setLabel acc kv.1 (goToLower kv.2))
                    (setLabel labels "managed-by" "karpenter")⟩] },
            true) := by
        rw [createFixedNodeGroup, hfind]
      rw [hinner]
      show createFixedNodeGroup
          { st with nodeGroups := st.nodeGroups ++
              [⟨freshId, name, st.clusterId, st.clusterFolderId,
                nodeLabels.foldl (fun acc kv => setLabel acc kv.1 (goToLower kv.2))
                  (setLabel labels "managed-by" "karpenter")⟩] }
          freshId2 name labels nodeLabels =
        (freshId,
          { st with nodeGroups := st.nodeGroups ++
              [⟨freshId, name, st.clusterId, st.clusterFolderId,
                nodeLabels.foldl (fun acc kv => setLabel acc kv.1 (goToLower kv.2))
                  (setLabel labels "managed-by" "karpenter")⟩] },
          false)
      rw [createFixedNodeGroup]
      have hmarker : mapLookup "managed-by"
          (nodeLabels.foldl (fun acc kv => setLabel acc kv.1 (goToLower kv.2))
            (setLabel labels "managed-by" "karpenter")) = some "karpenter" := by
        rw [nodeLabels_preserve_marker nodeLabels hnone,
          setLabel_lookup_self]
      have hlist : listNodeGroups
          { st with nodeGroups := st.nodeGroups ++
              [⟨freshId, name, st.clusterId, st.clusterFolderId,
                nodeLabels.foldl (fun acc kv => setLabel acc kv.1 (goToLower kv.2))
                  (setLabel labels "managed-by" "karpenter")⟩] } =
          listNodeGroups st ++
            [⟨freshId, name, st.clusterId, st.clusterFolderId,
              nodeLabels.foldl (fun acc kv => setLabel acc kv.1 (goToLower kv.2))
                (setLabel labels "managed-by" "karpenter")⟩] := by
        simp [listNodeGroups, List.filter_append, hmarker]
      rw [hlist, List.find?_append, hfind]
      simp [List.find?]

/-- Witness for C8 (amended) at a state already holding a managed node
group named `web`. -/
theorem c8_create_idempotent_amended_witness :
    createFixedNodeGroup
        ⟨"c", "f", [⟨"id0", "web", "c", "f", [("managed-by", "karpenter")]⟩], []⟩
        "idNew" "web" [] [] =
      ("id0",
        ⟨"c", "f", [⟨"id0", "web", "c", "f", [("managed-by", "karpenter")]⟩], []⟩,
        false) :=
  (c8_create_idempotent_amended
      ⟨"c", "f", [⟨"id0", "web", "c", "f", [("managed-by", "karpenter")]⟩], []⟩
      "idNew" "web" [] []).1
    ⟨"id0", "web", "c", "f", [("managed-by", "karpenter")]⟩ (by decide)

/-! ## Claim C9: delete is a no-op while a deletion is in flight -/

/-- Claim C9: for every node-group identifier with a delete operation
already in flight (an operation whose metadata type URL contains
`DeleteNodeGroup`), `DeleteNodeGroup` returns success without issuing a
provider Delete call and leaves the state unchanged; when no deletion is
in flight it issues the Delete call. -/
theorem c9_delete_in_flight_no_second_delete :
    ∀ (st : YCState) (ngId : String),
      ((∃ op ∈ st.operations, op.nodeGroupId = ngId ∧
          goContains op.metadataTypeUrl "DeleteNodeGroup" = true) →
        deleteNodeGroup st ngId = (st, false)) ∧
      ((∀ op ∈ st.operations, op.nodeGroupId = ngId →
          goContains op.metadataTypeUrl "DeleteNodeGroup" = false) →
        (deleteNodeGroup st ngId).2 = true) := by
  intro st ngId
  constructor
  · intro ⟨op, hmem, hid, hdel⟩
    have hop : op ∈ (st.operations.filter fun o => o.nodeGroupId = ngId).filter
        fun o => goContains o.metadataTypeUrl "DeleteNodeGroup" := by
      rw [List.mem_filter]
      refine ⟨List.mem_filter.mpr ⟨hmem, by simp [hid]⟩, by simp [hdel]⟩
    rw [deleteNodeGroup]
    rw [if_pos (List.length_pos.mpr (List.ne_nil_of_mem hop))]
  · intro h
    have hempty : (st.operations.filter fun o => o.nodeGroupId = ngId).filter
        (fun o => goContains o.metadataTypeUrl "DeleteNodeGroup") = [] := by
      rw [List.filter_eq_nil_iff]
      intro op hmem
      have hid := (List.mem_filter.mp hmem).2
      have := h op (List.mem_filter.mp hmem).1 (by simpa using hid)
      simp [this]
    rw [deleteNodeGroup, hempty]
    rfl

/-- Witness for C9: a state with a delete operation in flight for `ng1`
and one without. -/
theorem c9_delete_in_flight_no_second_delete_witness :
    deleteNodeGroup
        ⟨"c", "f", [],
          [⟨"ng1", "type.googleapis.com/yandex.cloud.k8s.v1.DeleteNodeGroupMetadata"⟩]⟩
        "ng1" =
      (⟨"c", "f", [],
        [⟨"ng1", "type.googleapis.com/yandex.cloud.k8s.v1.DeleteNodeGroupMetadata"⟩]⟩,
        false) :=
  (c9_delete_in_flight_no_second_delete
      ⟨"c", "f", [],
        [⟨"ng1", "type.googleapis.com/yandex.cloud.k8s.v1.DeleteNodeGroupMetadata"⟩]⟩
      "ng1").1
    ⟨⟨"ng1", "type.googleapis.com/yandex.cloud.k8s.v1.DeleteNodeGroupMetadata"⟩,
      by decide, by decide, by decide⟩

/-! ## Claim C10: subnet lists are sorted and carry exact available counts -/

theorem subnetLE_implies_claimOrder {a b : Subnet} (h : subnetLE a b) :
    subnetClaimOrder a b := by
  rw [subnetLE, subnetLess] at h
  by_cases hc : b.availableIPAddressCount = a.availableIPAddressCount
  · rw [if_pos hc] at h
    exact Or.inr ⟨hc.symm, le_of_not_lt (of_decide_eq_false h)⟩
  · rw [if_neg hc] at h
    have hle := of_decide_eq_false h
    exact Or.inl (by omega)

theorem mapM_option_mem {α β : Type} (f : α → Option β) :
    ∀ (xs : List α) (ys : List β), xs.mapM f = some ys →
      ∀ y ∈ ys, ∃ x ∈ xs, f x = some y := by
  intro xs
  induction xs with
  | nil =>
    intro ys h y hy
    rw [← List.mapM'_eq_mapM] at h
    simp only [List.mapM'] at h
    obtain rfl := Option.some.inj h
    exact absurd hy (List.not_mem_nil y)
  | cons a l ih =>
    intro ys h y hy
    rw [← List.mapM'_eq_mapM] at h
    simp only [List.mapM'] at h
    cases hfa : f a with
    | none => rw [hfa] at h; simp at h
    | some b =>
      rw [hfa] at h
      cases hl : List.mapM' f l with
      | none => rw [hl] at h; simp at h
      | some bs =>
        rw [hl] at h
        simp only [Option.pure_def, Option.bind_eq_bind, Option.some_bind] at h
        obtain rfl := Option.some.inj h
        rcases List.mem_cons.mp hy with rfl | hmem
        · exact ⟨a, List.mem_cons_self _ _, hfa⟩
        · obtain ⟨x, hx, hfx⟩ :=
            ih bs (by rw [← List.mapM'_eq_mapM]; exact hl) y hmem
          exact ⟨x, List.mem_cons_of_mem _ hx, hfx⟩

theorem calculateIPs_masks (c : String) (v : Int) (h : calculateIPs c = some v) :
    ∃ m, parseCIDRMask c = some m ∧ v = max ((2 : Int) ^ (32 - m) - 2) 0 := by
  rw [calculateIPs] at h
  cases hp : parseCIDRMask c with
  | none => rw [hp] at h; simp at h
  | some m =>
    rw [hp] at h
    simp only [Option.map_some'] at h
    obtain rfl := Option.some.inj h
    refine ⟨m, rfl, ?_⟩
    show (if (2 : Int) ^ (32 - m) - 2 < 0 then (0 : Int) else (2 : Int) ^ (32 - m) - 2) =
      max ((2 : Int) ^ (32 - m) - 2) 0
    generalize (2 : Int) ^ (32 - m) - 2 = t
    split <;> omega

theorem mapM_calculateIPs_masks :
    ∀ (blocks : List String) (vs : List Int), blocks.mapM calculateIPs = some vs →
      ∃ masks : List Nat, blocks.mapM parseCIDRMask = some masks ∧
        vs = masks.map fun m => max ((2 : Int) ^ (32 - m) - 2) 0 := by
  intro blocks
  induction blocks with
  | nil =>
    intro vs h
    rw [← List.mapM'_eq_mapM] at h
    simp only [List.mapM'] at h
    obtain rfl := Option.some.inj h
    exact ⟨[], by rw [← List.mapM'_eq_mapM]; rfl, rfl⟩
  | cons c l ih =>
    intro vs h
    rw [← List.mapM'_eq_mapM] at h
    simp only [List.mapM'] at h
    cases hc : calculateIPs c with
    | none => rw [hc] at h; simp at h
    | some v =>
      rw [hc] at h
      cases hl : List.mapM' calculateIPs l with
      | none => rw [hl] at h; simp at h
      | some ws =>
        rw [hl] at h
        simp only [Option.pure_def, Option.bind_eq_bind, Option.some_bind] at h
        obtain rfl := Option.some.inj h
        obtain ⟨m, hm, hv⟩ := calculateIPs_masks c v hc
        obtain ⟨masks, hmasks, hws⟩ :=
          ih ws (by rw [← List.mapM'_eq_mapM]; exact hl)
        refine ⟨m :: masks, ?_, ?_⟩
        · rw [← List.mapM'_eq_mapM]
          simp only [List.mapM', hm, Option.pure_def, Option.bind_eq_bind,
            Option.some_bind, List.mapM'_eq_mapM, hmasks]
        · rw [List.map_cons, ← hv, ← hws]

theorem listFreshSubnets_good (api : SubnetAPI) (terms : List SubnetSelectorTerm)
    (subs : List Subnet) (h : listFreshSubnets api terms = some subs) :
    subnetResultGood api subs := by
  rw [listFreshSubnets] at h
  simp only [Option.pure_def, Option.bind_eq_bind, Option.bind_eq_some] at h
  obtain ⟨subs0, hmm, hres⟩ := h
  obtain rfl := Option.some.inj hres
  constructor
  · exact (List.sorted_insertionSort subnetLE subs0).imp
      fun hab => subnetLE_implies_claimOrder hab
  · intro s hs
    have hs0 : s ∈ subs0 := (List.perm_insertionSort subnetLE subs0).mem_iff.mp hs
    obtain ⟨sn, hsn, hfsn⟩ := mapM_option_mem _ _ _ hmm s hs0
    have hsnmem : sn ∈ api.subnets := (List.mem_filter.mp hsn).1
    simp only [Option.pure_def, Option.bind_eq_bind, Option.bind_eq_some] at hfsn
    obtain ⟨total, htot, hsome⟩ := hfsn
    obtain rfl := Option.some.inj hsome
    rw [subnetTotalIPs] at htot
    cases hvs : sn.v4CidrBlocks.mapM calculateIPs with
    | none => rw [hvs] at htot; simp at htot
    | some vs =>
      rw [hvs] at htot
      simp only [Option.map_some'] at htot
      obtain rfl := Option.some.inj htot
      obtain ⟨masks, hmasks, hvsm⟩ := mapM_calculateIPs_masks sn.v4CidrBlocks vs hvs
      exact ⟨sn, hsnmem, rfl, rfl, masks, hmasks, by rw [← hvsm]⟩

/-- Claim C10: every subnet list the provider's List returns — freshly
computed or served from a cache whose entries were themselves previously
returned lists — is sorted by available-IP count in non-increasing order
with ties broken by zone id ascending, and each entry's available count
equals the sum of the usable IPs of the subnet's CIDR blocks
(`2^(32-mask) - 2` per block, floored at zero) minus the in-use address
count; the updated cache keeps that invariant. -/
theorem c10_subnet_list_sorted_and_counts
    (api : SubnetAPI) (cache : SubnetCache) (terms : List SubnetSelectorTerm)
    (res : List Subnet) (cache2 : SubnetCache)
    (hcache : subnetCacheGood api cache)
    (h : subnetProviderList api cache terms = some (res, cache2)) :
    subnetResultGood api res ∧ subnetCacheGood api cache2 := by
  rw [subnetProviderList] at h
  cases hlook : mapLookup terms cache with
  | some subs =>
    rw [hlook] at h
    injection Option.some.inj h with h1 h2
    subst h1; subst h2
    exact ⟨hcache _ (mapLookup_mem hlook), hcache⟩
  | none =>
    rw [hlook] at h
    simp only [Option.pure_def, Option.bind_eq_bind, Option.bind_eq_some] at h
    obtain ⟨subs, hfresh, hres⟩ := h
    injection Option.some.inj hres with h1 h2
    subst h1; subst h2
    refine ⟨listFreshSubnets_good api terms subs hfresh, ?_⟩
    intro kv hkv
    rcases List.mem_append.mp hkv with hold | hnew
    · exact hcache kv hold
    · obtain rfl := List.mem_singleton.mp hnew
      exact listFreshSubnets_good api terms subs hfresh

/-- Witness for C10 at a single-subnet network: a `/24` block yields 254
usable addresses, 5 of which are in use, so the returned (and newly
cached) list is the single entry with 249 available addresses. -/
theorem c10_subnet_list_sorted_and_counts_witness :
    subnetResultGood ⟨[⟨"s1", "ru-a", [("k", "v")], ["10.0.0.0/24"]⟩], [("s1", 5)]⟩
        [⟨"s1", "ru-a", 249⟩] ∧
      subnetCacheGood ⟨[⟨"s1", "ru-a", [("k", "v")], ["10.0.0.0/24"]⟩], [("s1", 5)]⟩
        [([⟨"s1", []⟩], [⟨"s1", "ru-a", 249⟩])] :=
  c10_subnet_list_sorted_and_counts
    ⟨[⟨"s1", "ru-a", [("k", "v")], ["10.0.0.0/24"]⟩], [("s1", 5)]⟩
    [] [⟨"s1", []⟩] [⟨"s1", "ru-a", 249⟩] [([⟨"s1", []⟩], [⟨"s1", "ru-a", 249⟩])]
    (fun kv hkv => absurd hkv (List.not_mem_nil kv))
    (by decide)

end KYandex
